import Mathlib

/-!
Verification of the bank-statement parser pipeline (`parser-services`).

This file gives a shallow embedding, in Lean 4, of the parts of the
pipeline that the checked properties talk about:

* `utils/conversions.py`  — `currency_string_to_float`
* `utils/date_parser.py`  — locale inference and date parsing helpers
* `utils/result_scorer.py` — `score_parsed_result`
* `utils/stats.py`        — `calculate_y_merge_tolerance`
* `v2/steps/genericv4/format-cleaner.py`  — stage 8 (FormatClean)
* `v2/steps/genericv4/clean-data.py`      — stage 3 (CleanData)
* `v2/steps/genericv4/build-rows.py`      — stage 6 (BuildRows)
* `v2/steps/genericv4/extract-column-range.py` — stage 4 (ColumnRange)
* `v2/steps/genericv4/merge-rows.py`      — stage 7 (MergeRows) guards
* `v2/steps/genericv4/header-extraction.py` and `header-recognition.py`
  — stages 1 and 2

Python floats are modelled as rationals (`ℚ`), Python strings as Lean
`String`/`List Char`, Python `None`/str/float dictionary values as the
`Val` type, and Python dicts as insertion-ordered association lists.
Fallible operations return `Option`/`Except`.
-/

namespace ParserServices

attribute [local semireducible] Rat.add Rat.mul Rat.inv Rat.sub

/-! ## Small Python-style helpers -/

/-- Characters treated as whitespace by Python's `str.strip` (ASCII part). -/
def isPyWs (c : Char) : Bool :=
  c == ' ' || c == '\t' || c == '\n' || c == '\r' || c == '\x0b' || c == '\x0c'

/-- Python `str.strip()` on a character list. -/
def pyStripList (cs : List Char) : List Char :=
  ((cs.dropWhile isPyWs).reverse.dropWhile isPyWs).reverse

/-- Python `str.strip()`. -/
def pyStrip (s : String) : String := String.mk (pyStripList s.toList)

/-- ASCII decimal digit test (regex `\d`, ASCII). -/
def isDig (c : Char) : Bool := '0' ≤ c && c ≤ '9'

/-- Digit or thousands separator (regex class `[\d,]`). -/
def isDigComma (c : Char) : Bool := isDig c || c == ','

/-- Numeric value of a digit character. -/
def digVal (c : Char) : Nat := c.toNat - '0'.toNat

/-- Maximal munch of characters satisfying `p` (greedy `p*`). -/
def takeWhileSplit (p : Char → Bool) : List Char → List Char × List Char
  | [] => ([], [])
  | c :: cs =>
      if p c then
        let t := takeWhileSplit p cs
        (c :: t.1, t.2)
      else ([], c :: cs)

/-- Fold a digit list into a natural number. -/
def digitsToNat (cs : List Char) : Nat :=
  cs.foldl (fun acc c => 10 * acc + digVal c) 0

/-- Stable insertion into a list sorted by `le` (new element goes after
existing elements it ties with, as Python's stable `sorted`). -/
def insSorted (le : α → α → Bool) (x : α) : List α → List α
  | [] => [x]
  | y :: ys => if le y x then y :: insSorted le x ys else x :: y :: ys

/-- Stable sort by `le` (model of Python's `sorted`). -/
def pySorted (le : α → α → Bool) (xs : List α) : List α :=
  xs.foldl (fun acc x => insSorted le x acc) []

/-- A Python dictionary value: `None`, a string, or a float. -/
inductive Val where
  | none : Val
  | str  : String → Val
  | num  : ℚ → Val
deriving DecidableEq, Repr

/-- A Python dict modelled as an insertion-ordered association list
with unique keys. -/
abbrev Row := List (String × Val)

/-- Dict lookup: `d.get(k)` returns `none` when the key is absent. -/
def rowGet (r : Row) (k : String) : Option Val :=
  match r.find? (fun p => p.1 == k) with
  | some p => some p.2
  | Option.none => Option.none

/-- Dict assignment `d[k] = v`: update in place if the key exists,
otherwise append (CPython insertion-order semantics). -/
def rowSet (r : Row) (k : String) (v : Val) : Row :=
  match r with
  | [] => [(k, v)]
  | p :: ps => if p.1 == k then (k, v) :: ps else p :: rowSet ps k v

/-- `d.get(k)` is `None`-valued: key absent or value `None`. -/
def rowIsNull (r : Row) (k : String) : Bool :=
  match rowGet r k with
  | some Val.none => true
  | Option.none => true
  | _ => false

/-! ## `utils/conversions.py` — `currency_string_to_float`

The regex `[-+]?\d[\d,]*\.?\d*` is matched by maximal munch: every
subpattern after the leading digit can match the empty string, so the
greedy match never needs to backtrack. -/

/-- Match `\d[\d,]*\.?\d*` at the head of the list; returns the matched
characters and the rest. -/
def floatBodyAt : List Char → Option (List Char × List Char)
  | [] => Option.none
  | c :: cs =>
      if isDig c then
        let t1 := takeWhileSplit isDigComma cs
        match t1.2 with
        | '.' :: r2 =>
            let t2 := takeWhileSplit isDig r2
            some (c :: t1.1 ++ '.' :: t2.1, t2.2)
        | r1 => some (c :: t1.1, r1)
      else Option.none

/-- Match `[-+]?\d[\d,]*\.?\d*` at the head of the list. -/
def floatTokenAt : List Char → Option (List Char × List Char)
  | [] => Option.none
  | c :: cs =>
      if c == '-' || c == '+' then
        match floatBodyAt cs with
        | some (t, r) => some (c :: t, r)
        | Option.none => Option.none
      else floatBodyAt (c :: cs)

/-- `re.findall(r"[-+]?\d[\d,]*\.?\d*", s)`: scan left to right, taking
non-overlapping matches, advancing one character on failure.  `fuel`
bounds the recursion; any `fuel ≥ cs.length` gives the exact result. -/
def findFloatTokensGo : Nat → List Char → List (List Char)
  | 0, _ => []
  | _ + 1, [] => []
  | n + 1, c :: cs =>
      match floatTokenAt (c :: cs) with
      | some (t, r) => t :: findFloatTokensGo n r
      | Option.none => findFloatTokensGo n cs

/-- All matches of the float-shaped regex in `s`. -/
def findFloatTokens (s : String) : List (List Char) :=
  findFloatTokensGo s.toList.length s.toList

/-- Parse the mantissa digits `D+ (. D*)?` into a rational. -/
def mantissaQ : List Char → Option (ℚ × List Char)
  | cs =>
      let ip := takeWhileSplit isDig cs
      match ip.1, ip.2 with
      | [], '.' :: r2 =>
          let fp := takeWhileSplit isDig r2
          if fp.1 = [] then Option.none
          else some ((digitsToNat fp.1 : ℚ) / (10 : ℚ) ^ fp.1.length, fp.2)
      | [], _ => Option.none
      | ds, '.' :: r2 =>
          let fp := takeWhileSplit isDig r2
          some ((digitsToNat ds : ℚ) + (digitsToNat fp.1 : ℚ) / (10 : ℚ) ^ fp.1.length, fp.2)
      | ds, r1 => some ((digitsToNat ds : ℚ), r1)

/-- Model of CPython `float(s)` on decimal literals: optional surrounding
whitespace, optional sign, `D+[.D*] | .D+`, optional exponent.  Returns
`none` where `float` raises `ValueError` (special forms such as `inf`,
`nan` or underscore separators are not produced by this pipeline and
are also mapped to `none`). -/
def pyFloatQ (cs : List Char) : Option ℚ :=
  let cs := pyStripList cs
  let (sgn, cs) :=
    match cs with
    | '-' :: r => ((-1 : ℚ), r)
    | '+' :: r => ((1 : ℚ), r)
    | r => ((1 : ℚ), r)
  match mantissaQ cs with
  | Option.none => Option.none
  | some (m, rest) =>
      match rest with
      | [] => some (sgn * m)
      | e :: r2 =>
          if e == 'e' || e == 'E' then
            let (esgn, r3) :=
              match r2 with
              | '-' :: r => ((-1 : ℤ), r)
              | '+' :: r => ((1 : ℤ), r)
              | r => ((1 : ℤ), r)
            let ed := takeWhileSplit isDig r3
            if ed.1 = [] || ed.2 ≠ [] then Option.none
            else some (sgn * m * (10 : ℚ) ^ (esgn * (digitsToNat ed.1 : ℤ)))
          else Option.none

/-- `currency_string_to_float` (conversions.py, lines 16–31): `None`
unless the value is a non-empty string; extract the last float-shaped
substring, strip commas, parse as a float. -/
def currencyStringToFloat (v : Val) : Option ℚ :=
  match v with
  | Val.str s =>
      if s = "" then Option.none
      else
        match (findFloatTokens s).getLast? with
        | Option.none => Option.none
        | some t => pyFloatQ (t.filter (fun c => !(c == ',')))
  | _ => Option.none

/-! ## `utils/date_parser.py`

`smart_date_parser` inspects the numeric head of the string with the
regex `^\s*(\d{1,2})[slash or dash](\d{1,2})[slash or dash](\d{2,4})\b` and chooses
day-first or month-first parsing, falling back to the caller's default
locale when ambiguous; the actual parse is delegated to
`dateutil.parser.parse`.  `dateutil` is a third-party library; it is
modelled here on the two input shapes this pipeline feeds it — plain
`D[slash or dash]M[slash or dash]Y`-style dates and ISO `YYYY-MM-DD` dates — returning `none`
on everything else (where the Python code catches the exception). -/

/-- A calendar date. -/
structure YMD where
  year : Nat
  month : Nat
  day : Nat
deriving DecidableEq, Repr

/-- Gregorian leap year. -/
def isLeap (y : Nat) : Bool := (y % 4 == 0 && y % 100 != 0) || y % 400 == 0

/-- Days in a month. -/
def daysInMonth (y m : Nat) : Nat :=
  if m == 2 then (if isLeap y then 29 else 28)
  else if m == 4 || m == 6 || m == 9 || m == 11 then 30
  else 31

/-- Calendar validity of (year, month, day). -/
def validYMD (y m d : Nat) : Bool :=
  1 ≤ m && m ≤ 12 && 1 ≤ d && d ≤ daysInMonth y m

/-- Regex class `[slash or dash]`. -/
def isSep (c : Char) : Bool := c == '/' || c == '-'

/-- Regex class `\w` (ASCII model), for the `\b` boundary. -/
def isWordChar (c : Char) : Bool := c.isAlpha || isDig c || c == '_'

/-- Match `(\d{1,2})[slash or dash]` at the head (greedy, with the regex's
backtracking: two digits are preferred, one digit is tried when the
third character is not a separator). Returns the numeric value and the
rest after the separator. -/
def num12At : List Char → Option (Nat × List Char)
  | c1 :: c2 :: c3 :: rest =>
      if isDig c1 && isDig c2 && isSep c3 then some (digVal c1 * 10 + digVal c2, rest)
      else if isDig c1 && isSep c2 then some (digVal c1, c3 :: rest)
      else Option.none
  | [c1, c2] => if isDig c1 && isSep c2 then some (digVal c1, []) else Option.none
  | _ => Option.none

/-- Match `(\d{2,4})\b` at the head: a run of 2–4 digits followed by a
non-word character or the end of the string.  (A longer digit run can
never satisfy the boundary after backtracking, since the next character
would be a digit.) -/
def year24At (cs : List Char) : Option (Nat × List Char) :=
  let t := takeWhileSplit isDig cs
  if 2 ≤ t.1.length && t.1.length ≤ 4 &&
      (match t.2 with | [] => true | c :: _ => !isWordChar c) then
    some (digitsToNat t.1, t.2)
  else Option.none

/-- `_DATE_HEAD_RE.match(s)`: the first two numeric groups of a leading
`DD?[slash or dash]DD?[slash or dash]YYYY` pattern, or `none` when the head does not match. -/
def dateHeadMatch (s : String) : Option (Nat × Nat) :=
  let cs := s.toList.dropWhile isPyWs
  match num12At cs with
  | some (a, r1) =>
      match num12At r1 with
      | some (b, r2) =>
          match year24At r2 with
          | some _ => some (a, b)
          | Option.none => Option.none
      | Option.none => Option.none
  | Option.none => Option.none

/-- `_infer_dayfirst_from_head` (date_parser.py, lines 47–71). -/
def inferDayfirstFromHead (s : String) : Option Bool :=
  match dateHeadMatch s with
  | Option.none => Option.none
  | some (a, b) =>
      if a > 12 && b ≤ 12 then some true
      else if b > 12 && a ≤ 12 then some false
      else Option.none

/-- Full-string `D[slash or dash]M[slash or dash]Y` date (after stripping), as fed to
`dateutil`. -/
def parseDMYTokens (s : String) : Option (Nat × Nat × Nat) :=
  let cs := pyStripList s.toList
  match num12At cs with
  | some (a, r1) =>
      match num12At r1 with
      | some (b, r2) =>
          match year24At r2 with
          | some (y, rest) => if rest = [] then some (a, b, y) else Option.none
          | Option.none => Option.none
      | Option.none => Option.none
  | Option.none => Option.none

/-- Full-string ISO `YYYY-MM-DD` date (after stripping). -/
def parseISOTokens (s : String) : Option (Nat × Nat × Nat) :=
  match pyStripList s.toList with
  | [y1, y2, y3, y4, s1, m1, m2, s2, d1, d2] =>
      if s1 == '-' && s2 == '-' && [y1, y2, y3, y4, m1, m2, d1, d2].all isDig then
        some (digitsToNat [y1, y2, y3, y4], digitsToNat [m1, m2], digitsToNat [d1, d2])
      else Option.none
  | _ => Option.none

/-- `dateutil`'s two-digit year window (±50 years around 2000). -/
def expandYear (y : Nat) : Nat :=
  if y < 100 then (if y < 50 then 2000 + y else 1900 + y) else y

/-- Model of `dateutil.parser.parse(s, dayfirst=...)` on the date shapes
this pipeline produces. On `D[slash or dash]M[slash or dash]Y` dates, `dayfirst` picks the
day/month order and `dateutil` swaps the pair when the chosen month is
impossible (> 12) but the swap is not; `none` models a raised
`ParserError`. -/
def dateutilParse (s : String) (dayfirst : Bool) : Option YMD :=
  match parseISOTokens s with
  | some (y, m, d) => if validYMD y m d then some ⟨y, m, d⟩ else Option.none
  | Option.none =>
      match parseDMYTokens s with
      | some (a, b, yy) =>
          let y := expandYear yy
          let dm := if dayfirst then (a, b) else (b, a)
          let dm := if dm.2 > 12 && dm.1 ≤ 12 then (dm.2, dm.1) else dm
          if validYMD y dm.2 dm.1 then some ⟨y, dm.2, dm.1⟩ else Option.none
      | Option.none => Option.none

/-- Two decimal digits, zero padded (`%m`, `%d`). -/
def pad2 (n : Nat) : List Char :=
  if n < 10 then ['0', Nat.digitChar n]
  else [Nat.digitChar (n / 10 % 10), Nat.digitChar (n % 10)]

/-- Four decimal digits (`%Y` for the 4-digit years this pipeline
handles; `%Y` on years below 1000 is platform dependent in CPython and
is not relied on). -/
def year4 (y : Nat) : List Char :=
  [Nat.digitChar (y / 1000 % 10), Nat.digitChar (y / 100 % 10),
   Nat.digitChar (y / 10 % 10), Nat.digitChar (y % 10)]

/-- `dt.strftime("%Y-%m-%d")`. -/
def fmtYMD (d : YMD) : String :=
  String.mk (year4 d.year ++ '-' :: pad2 d.month ++ '-' :: pad2 d.day)

/-- `parse_date_us_format` (date_parser.py, lines 78–87), restricted to
the default `%Y-%m-%d` output format; `none` models the caught
exception, including non-string inputs. -/
def parseDateUsFormat (v : Val) : Option String :=
  match v with
  | Val.str s => (dateutilParse s false).map fmtYMD
  | _ => Option.none

/-- `parse_date_eu_format` (date_parser.py, lines 90–96). -/
def parseDateEuFormat (v : Val) : Option String :=
  match v with
  | Val.str s => (dateutilParse s true).map fmtYMD
  | _ => Option.none

/-- `_EU_ALIASES`. -/
def EU_ALIASES : List String := ["EU", "EUR", "EUROPE", "UK", "DD/MM", "IN", "INDIA"]

/-- `_US_ALIASES`. -/
def US_ALIASES : List String := ["US", "USA", "MM/DD", ""]

/-- Python `str.upper()` (ASCII model). -/
def pyUpper (s : String) : String := String.mk (s.toList.map Char.toUpper)

/-- `_norm_locale` (date_parser.py, lines 23–35). -/
def normLocale (locale : String) : String :=
  if locale = "" then "US"
  else
    let up := pyUpper (pyStrip locale)
    if EU_ALIASES.contains up then "EU"
    else if US_ALIASES.contains up then "US"
    else if up.startsWith "EU" || up.startsWith "IN" then "EU"
    else "US"

/-- `smart_date_parser` (date_parser.py, lines 113–157): returns the
`%Y-%m-%d`-formatted value and the locale that was used; on a parse
failure returns the input string unchanged together with `"US"`. -/
def smartDateParser (s : String) (defaultLocale : String) : String × String :=
  match inferDayfirstFromHead s with
  | Option.none =>
      let norm := normLocale defaultLocale
      match dateutilParse s (norm == "EU") with
      | some d => (fmtYMD d, norm)
      | Option.none => (s, "US")
  | some df =>
      match dateutilParse s df with
      | some d => (fmtYMD d, if df then "EU" else "US")
      | Option.none => (s, "US")

/-- `DATE_FORMAT_MAP` (date_parser.py, line 6). -/
def DATE_FORMAT_MAP : List (String × List String) := [("US", ["US"]), ("EU", ["EU", "IN"])]

/-! ## Stage 8 — `format-cleaner.py` (FormatCleaner) -/

/-- `FormatCleaner._normalize`: keep only lowercase letters. -/
def fcNormalize (s : String) : String :=
  String.mk ((s.toList.map Char.toLower).filter (fun c => 'a' ≤ c && c ≤ 'z'))

/-- Substring test (Python `needle in hay`). -/
def isSubstrList : List Char → List Char → Bool
  | n, [] => n == []
  | n, c :: cs => n.isPrefixOf (c :: cs) || isSubstrList n cs

/-- Python `a in b` on strings. -/
def strIn (needle hay : String) : Bool := isSubstrList needle.toList hay.toList

/-- `HEADERS_MAP` of `FormatCleaner._map_headers`. -/
def FC_HEADERS_MAP : List (String × List String) :=
  [("date", ["date", "txndate", "trandate", "transactiondate"]),
   ("particulars", ["particulars", "transactiondetails", "description", "remarks", "narration"]),
   ("credit", ["deposits", "credit", "credits", "deposit"]),
   ("debit", ["withdrawals", "debit", "debits", "withdrawal"]),
   ("balance", ["balance"])]

/-- `FormatCleaner._map_headers` (format-cleaner.py, lines 14–39). -/
def fcMapHeaders (header : String) : String :=
  let normalized := fcNormalize header
  match FC_HEADERS_MAP.find?
      (fun kv => kv.2.any (fun v => strIn normalized v || strIn v normalized)) with
  | some kv => kv.1
  | Option.none => header

/-- `HEADER_TYPES` of `FormatCleaner.format_row`. -/
def FC_HEADER_TYPES (k : String) : Option String :=
  if k == "date" then some "date-string"
  else if k == "particulars" then some "string"
  else if k == "debit" || k == "credit" || k == "balance" then some "float"
  else Option.none

/-- Python `str(value)` on the values that occur in rows (strings pass
through; the pipeline never stringifies non-string cell values on the
`particulars` path, so floats/None get their `repr` spelling). -/
def pyStrVal (v : Val) : String :=
  match v with
  | Val.str s => s
  | Val.none => "None"
  | Val.num q => if q.den = 1 then toString q.num ++ ".0" else toString q

/-- One iteration of the `for key, value in row.items()` loop of
`format_row`: convert `row[key]` according to its declared type. -/
def formatRowStep (fmt : String) (row : Row) (k : String) : Row :=
  let v := (rowGet row k).getD Val.none
  match FC_HEADER_TYPES k with
  | some t =>
      if t == "float" then
        rowSet row k (match currencyStringToFloat v with
                      | some q => Val.num q
                      | Option.none => Val.none)
      else if t == "date-string" then
        let row1 :=
          if fmt == "US" then
            rowSet row k (match parseDateUsFormat v with
                          | some r => Val.str r
                          | Option.none => Val.none)
          else row
        if fmt == "EU" then
          rowSet row1 k (match parseDateEuFormat ((rowGet row1 k).getD Val.none) with
                         | some r => Val.str r
                         | Option.none => Val.none)
        else row1
      else if t == "string" then rowSet row k (Val.str (pyStrVal v))
      else row
  | Option.none => row

/-- The drop test executed after each conversion in `format_row`
(format-cleaner.py, line 60): `(date is None or balance is None) and
(date is None or amount is None)`. -/
def fcDropCond (row : Row) : Bool :=
  (rowIsNull row "date" || rowIsNull row "balance") &&
  (rowIsNull row "date" || rowIsNull row "amount")

/-- The `for key, value in row.items()` loop of `format_row`: the key
sequence is fixed up front (mutation only updates values), each step
converts one value and then applies the drop test. -/
def formatRowGo (fmt : String) : List String → Row → Option Row
  | [], row => some row
  | k :: ks, row =>
      let row' := formatRowStep fmt row k
      if fcDropCond row' then Option.none else formatRowGo fmt ks row'

/-- `FormatCleaner.format_row` (format-cleaner.py, lines 41–62). -/
def formatRow (row : Row) (dateCountryFormat : String) : Option Row :=
  formatRowGo dateCountryFormat (row.map Prod.fst) row

/-- `FormatCleaner.get_date_country_format` (format-cleaner.py,
lines 64–76).  The country is first looked up in `DATE_FORMAT_MAP`;
only when that yields nothing are the sampled dates consulted, keeping
the last non-`"US"` inferred locale. -/
def getDateCountryFormat (dates : List String) (country : Option String) : String :=
  let fromCountry := DATE_FORMAT_MAP.foldl
    (fun acc kv =>
      if (match country with | some c => kv.2.contains c | Option.none => false) then some kv.1
      else acc)
    Option.none
  match fromCountry with
  | some f => f
  | Option.none =>
      let fromDates := dates.foldl
        (fun acc d =>
          let fmt := (smartDateParser d "US").2
          if fmt == "US" then acc else some fmt)
        Option.none
      match fromDates with
      | some f => f
      | Option.none => "US"

/-- The header-mapping pass of `FormatCleaner.run`: rebuild each row
with canonicalized keys (`mapped_row[mapped_key] = value`). -/
def fcMapRow (row : Row) : Row :=
  row.foldl (fun acc kv => rowSet acc (fcMapHeaders kv.1) kv.2) []

/-- One page of `FormatCleaner.run`'s second pass (format-cleaner.py,
lines 117–139): map headers, format each row, keep only truthy results,
and stamp the page number. -/
def formatCleanerPage (fmt : String) (pageRows : List Row) (pageNumber : ℚ) : List Row :=
  (pageRows.map fcMapRow).filterMap (fun row =>
    match formatRow row fmt with
    | some r => if r = [] then Option.none else some (rowSet r "page_number" (Val.num pageNumber))
    | Option.none => Option.none)

/-! ## Stage 3 — `clean-data.py` (CleanData) -/

/-- A word as handled by CleanData (the keys its functions read and
write: `text`, `x0`, `x1`, `top`, `bottom`, `doctop`). -/
structure CWord where
  text : String
  x0 : ℚ
  x1 : ℚ
  top : ℚ
  bottom : ℚ
  doctop : ℚ
deriving DecidableEq, Repr

/-- `re.search(r"\.{3,}", text)`: some run of three or more dots. -/
def hasDotRun3 : List Char → Bool
  | '.' :: '.' :: '.' :: _ => true
  | _ :: rest => hasDotRun3 rest
  | [] => false

/-- `re.fullmatch(r"\.+", text)`: non-empty, all dots. -/
def isAllDots (cs : List Char) : Bool := !cs.isEmpty && cs.all (fun c => c == '.')

/-- `CleanData.is_fake_i_filler`: `re.fullmatch(r"i{1,}", text, IGNORECASE)`. -/
def isFakeIFiller (s : String) : Bool :=
  !s.toList.isEmpty && s.toList.all (fun c => c == 'i' || c == 'I')

/-- `CleanData.is_fake_hyphen_filler`: `re.fullmatch(r"-+\s*", text.strip())`. -/
def isFakeHyphenFiller (s : String) : Bool :=
  let t := takeWhileSplit (fun c => c == '-') (pyStripList s.toList)
  !t.1.isEmpty && t.2.all isPyWs

/-- `re.split(r'(\.{3,})', text)` keeping the delimiters: alternating
non-match and dot-run segments, scanning greedily left to right.
`fuel ≥ rest.length` gives the exact result. -/
def splitDotsGo : Nat → List Char → List Char → List (List Char)
  | 0, acc, rest => [acc.reverse ++ rest]
  | _ + 1, acc, [] => [acc.reverse]
  | n + 1, acc, '.' :: cs =>
      let run := takeWhileSplit (fun c => c == '.') ('.' :: cs)
      if 3 ≤ run.1.length then acc.reverse :: run.1 :: splitDotsGo n [] run.2
      else splitDotsGo n (run.1.reverse ++ acc) run.2
  | n + 1, acc, c :: cs => splitDotsGo n (c :: acc) cs

/-- `CleanData.smart_split_with_dots` (clean-data.py, lines 12–18):
split on long dot runs, keep the delimiters, drop parts that are empty
after stripping. -/
def smartSplitWithDots (text : String) : List (List Char) :=
  (splitDotsGo text.toList.length [] text.toList).filter
    (fun p => !(pyStripList p).isEmpty)

/-- `CleanData.estimate_bounding_boxes` (clean-data.py, lines 20–52):
distribute the original box across the parts by character count. -/
def estimateBoundingBoxes (original : CWord) (parts : List (List Char)) : List CWord :=
  let width := original.x1 - original.x0
  let totalChars := (parts.map List.length).sum
  if totalChars = 0 then []
  else
    let charWidth := width / (totalChars : ℚ)
    (parts.foldl
      (fun (st : List CWord × ℚ) part =>
        let partWidth := (part.length : ℚ) * charWidth
        (st.1 ++ [{ text := String.mk part, x0 := st.2, x1 := st.2 + partWidth,
                    top := original.top, bottom := original.bottom,
                    doctop := original.doctop }],
         st.2 + partWidth))
      ([], original.x0)).1

/-- `CleanData.clean_dot_padded_words` (clean-data.py, lines 61–85). -/
def cleanDotPaddedWords (words : List CWord) : List CWord :=
  words.flatMap (fun word =>
    if isFakeHyphenFiller word.text then []
    else if hasDotRun3 word.text.toList || isFakeIFiller word.text then
      if isAllDots word.text.toList || isFakeIFiller word.text then []
      else
        let parts := smartSplitWithDots word.text
        if 1 < parts.length then estimateBoundingBoxes word parts
        else [word]
    else [word])

/-! ## `utils/stats.py` — `calculate_y_merge_tolerance` -/

/-- A word as handled by BuildRows and ColumnRange (`text`, `x0`, `x1`,
`top`, `bottom`). -/
structure BWord where
  text : String
  x0 : ℚ
  x1 : ℚ
  top : ℚ
  bottom : ℚ
deriving DecidableEq, Repr

/-- A horizontal rule line (`y0` is the key BuildRows reads). -/
structure HLine where
  y0 : ℚ
deriving DecidableEq, Repr

/-- `np.mean`. -/
def npMean (xs : List ℚ) : ℚ := xs.sum / (xs.length : ℚ)

/-- `np.percentile(xs, p)` with the default linear interpolation. -/
def npPercentile (xs : List ℚ) (p : ℚ) : ℚ :=
  let a := pySorted (fun x y => decide (x ≤ y)) xs
  let h := ((a.length : ℚ) - 1) * p / 100
  let lo := Int.toNat (Int.floor h)
  let hi := Int.toNat (Int.ceil h)
  let alo := (a[lo]?).getD 0
  let ahi := (a[hi]?).getD 0
  alo + (h - (lo : ℚ)) * (ahi - alo)

/-- `np.median`. -/
def npMedian (xs : List ℚ) : ℚ := npPercentile xs 50

/-- Rational stand-in for `np.std` (population standard deviation):
`sqrt(num·den)/den` of the variance, using the integer square root.
The float result is itself an approximation of the irrational square
root; no analysed behavior depends on its exact value. -/
def ratSqrt (q : ℚ) : ℚ :=
  if q ≤ 0 then 0 else ((Nat.sqrt (q.num.toNat * q.den) : ℚ) / (q.den : ℚ))

/-- `np.std`. -/
def npStd (xs : List ℚ) : ℚ :=
  let m := npMean xs
  ratSqrt (npMean (xs.map (fun x => (x - m) * (x - m))))

/-- `statistics.mode`: the most common value; on ties the first one
encountered in data order (Python ≥ 3.8). -/
def pyMode (xs : List ℚ) : ℚ :=
  match xs with
  | [] => 0
  | x :: _ => xs.foldl (fun best a => if xs.count best < xs.count a then a else best) x

/-- Round to the nearest integer, ties to even (CPython `round`). -/
def roundHalfEven (x : ℚ) : ℤ :=
  let f := Int.floor x
  let r := x - (f : ℚ)
  if r < 1/2 then f
  else if 1/2 < r then f + 1
  else if f % 2 = 0 then f else f + 1

/-- Python `round(x, 1)`. -/
def pyRound1 (q : ℚ) : ℚ := (roundHalfEven (q * 10) : ℚ) / 10

/-- Python `round(x, 2)`. -/
def pyRound2 (q : ℚ) : ℚ := (roundHalfEven (q * 100) : ℚ) / 100

/-- `calculate_y_merge_tolerance` (stats.py, lines 6–106) with its
default arguments (`min_gap_samples = 10`, `default_tolerance = 3`). -/
def calculateYMergeTolerance (words : List BWord) : ℚ :=
  if words.length < 2 then 3
  else
    let sortedWords := pySorted (fun a b => decide (a.top ≤ b.top)) words
    let pairs := sortedWords.zip sortedWords.tail
    let lineHeights := pairs.flatMap (fun p =>
      (if 0 < p.1.bottom - p.1.top then [p.1.bottom - p.1.top] else []) ++
      (if 0 < p.2.bottom - p.2.top then [p.2.bottom - p.2.top] else []))
    let yGaps := pairs.filterMap (fun p =>
      if 0 < p.2.top - p.1.bottom then some (p.2.top - p.1.bottom) else Option.none)
    if yGaps.length < 10 then 3
    else
      let iqr := npPercentile yGaps 75 - npPercentile yGaps 25
      let avgLineHeight := if lineHeights = [] then 10 else npMean lineHeights
      let normalisedIqr := iqr / avgLineHeight
      let isTightlyPacked := normalisedIqr < 1/2 || pyMode yGaps < iqr
      if isTightlyPacked then 0
      else min (min (max (pyRound1 (npMedian yGaps) + npStd yGaps * (2/10)) 2) (npMean yGaps)) 7

/-! ## Stage 6 — `build-rows.py` (BuildRows) -/

/-- `BuildRows._crosses_horizontal` (build-rows.py, lines 11–20), over
the object's `self.horizontal_lines`. -/
def crossesHorizontal (horizontalLines : List HLine) (bottomY topY : ℚ) : Bool :=
  horizontalLines.any (fun l => bottomY < l.y0 && l.y0 < topY)

/-- The merge loop of `BuildRows.group_rows` for one column, after the
first word has seeded `curr_sentence` (`y_bottom` tracks the running
merged bottom). -/
def groupColumnWordsGo (horizontalLines : List HLine) (tol : ℚ) :
    BWord → ℚ → List BWord → List BWord
  | curr, _, [] => [curr]
  | curr, yb, w :: ws =>
      let closeVertically := |w.top - yb| ≤ tol || |w.bottom - yb| ≤ tol
      let noHorizontal := !crossesHorizontal horizontalLines yb w.top
      if closeVertically && noHorizontal then
        let curr' := { curr with text := curr.text ++ " " ++ w.text,
                                 bottom := max curr.bottom w.bottom }
        groupColumnWordsGo horizontalLines tol curr' curr'.bottom ws
      else curr :: groupColumnWordsGo horizontalLines tol w w.bottom ws

/-- One column of `BuildRows.group_rows` (build-rows.py, lines 27–58):
sort by top and merge vertically-adjacent words not separated by a
horizontal line.  An empty column yields `[None]` in Python, hence the
`Option`. -/
def groupColumnWords (horizontalLines : List HLine) (tol : ℚ)
    (words : List BWord) : List (Option BWord) :=
  match pySorted (fun a b => decide (a.top ≤ b.top)) words with
  | [] => [Option.none]
  | w :: ws => (groupColumnWordsGo horizontalLines tol w w.bottom ws).map some

/-- `BuildRows.group_rows` (build-rows.py, lines 22–59). -/
def groupRows (horizontalLines : List HLine) (tol : ℚ)
    (headerGroups : List (String × List BWord)) : List (String × List (Option BWord)) :=
  headerGroups.map (fun kv => (kv.1, groupColumnWords horizontalLines tol kv.2))

/-- An item of `create_rows_json`: a merged word tagged with its header. -/
structure BItem where
  word : BWord
  header : String
deriving DecidableEq, Repr

/-- `BuildRows.is_intersection` (build-rows.py, lines 61–83): the word's
y-range meets the row bounds expanded by the tolerance. -/
def rowYIntersects (bounds : ℚ × ℚ) (item : BWord) (tol : ℚ) : Bool :=
  !(item.bottom < bounds.1 - tol || item.top > bounds.2 + tol)

/-- Place one item into the first intersecting open row, updating that
row's bounds, or open a new row (build-rows.py, lines 117–135). -/
def placeItem (tol : ℚ) (item : BItem) :
    List (List BItem × (ℚ × ℚ)) → List (List BItem × (ℚ × ℚ))
  | [] => [([item], (item.word.top, item.word.bottom))]
  | (row, bounds) :: rest =>
      if rowYIntersects bounds item.word tol then
        (row ++ [item], (min bounds.1 item.word.top, max bounds.2 item.word.bottom)) :: rest
      else (row, bounds) :: placeItem tol item rest

/-- `BuildRows.create_rows_json` (build-rows.py, lines 100–163).
Python seeds the bounding-box folds with `±float('inf')`; rationals
have no infinity, so `±10^9` stands in — every row holds at least one
item, whose coordinates immediately replace the seed. -/
def createRowsJson (headerGroups : List (String × List (Option BWord))) (tol : ℚ) : List Row :=
  let allItems := headerGroups.flatMap (fun kv =>
    kv.2.filterMap (fun it =>
      match it with
      | some w => some ({ word := w, header := kv.1 } : BItem)
      | Option.none => Option.none))
  let sortedItems := pySorted (fun a b => decide (a.word.top ≤ b.word.top)) allItems
  let rows := sortedItems.foldl (fun acc it => placeItem tol it acc) []
  rows.map (fun rb =>
    let st := rb.1.foldl
      (fun (st : Row × ℚ × ℚ × ℚ × ℚ) it =>
        let rowDict :=
          match rowGet st.1 it.header with
          | some (Val.str t) => rowSet st.1 it.header (Val.str (t ++ " " ++ it.word.text))
          | some v => rowSet st.1 it.header (Val.str (pyStrVal v ++ " " ++ it.word.text))
          | Option.none => rowSet st.1 it.header (Val.str it.word.text)
        (rowDict, min st.2.1 it.word.top, max st.2.2.1 it.word.bottom,
         min st.2.2.2.1 it.word.x0, max st.2.2.2.2 it.word.x1))
      ([], 1000000000, -1000000000, 1000000000, -1000000000)
    rowSet (rowSet (rowSet (rowSet st.1
      "y_top" (Val.num st.2.1)) "y_bottom" (Val.num st.2.2.1))
      "x_left" (Val.num st.2.2.2.1)) "x_right" (Val.num st.2.2.2.2))

/-- `BuildRows.calculate_dynamic_y_tolerance` (build-rows.py,
lines 168–198) on a dict of header groups: only the `particulars`
column is considered. -/
def calculateDynamicYTolerance (headerGroups : List (String × List BWord)) : ℚ :=
  let allWords := headerGroups.flatMap (fun kv => if kv.1 == "particulars" then kv.2 else [])
  if allWords = [] then 2
  else calculateYMergeTolerance allWords

/-- One page of `BuildRows.run` (build-rows.py, lines 200–231).  The
object's `horizontal_lines` list — initialized to `[]` in `__init__`
and never assigned anywhere — is what `group_rows` consults, so the
page's actual rule lines never take part. -/
def buildRowsPage (headerGroups : List (String × List BWord)) : List Row :=
  let yTolerance := calculateDynamicYTolerance headerGroups
  let grouped := groupRows ([] : List HLine) yTolerance headerGroups
  createRowsJson grouped yTolerance

/-! ## Stage 4 — `extract-column-range.py` (ExtractColumnRange) -/

/-- A header record (`text`, `x0`, `x1`, `top`, `bottom`). -/
structure Hdr where
  text : String
  x0 : ℚ
  x1 : ℚ
  top : ℚ
  bottom : ℚ
deriving DecidableEq, Repr

/-- A vertical rule line (`x0` and `bottom` are the keys read). -/
structure VLine where
  x0 : ℚ
  bottom : ℚ
deriving DecidableEq, Repr

/-- A column-range mapping `header text → (x_left, x_right)`,
insertion ordered. -/
abbrev ColRanges := List (String × (ℚ × ℚ))

/-- Dict lookup on column ranges. -/
def crGet (m : ColRanges) (k : String) : Option (ℚ × ℚ) :=
  match m.find? (fun p => p.1 == k) with
  | some p => some p.2
  | Option.none => Option.none

/-- Dict assignment on column ranges. -/
def crSet (m : ColRanges) (k : String) (v : ℚ × ℚ) : ColRanges :=
  match m with
  | [] => [(k, v)]
  | p :: ps => if p.1 == k then (k, v) :: ps else p :: crSet ps k v

/-- `ExtractColumnRange.is_intersection` (extract-column-range.py,
lines 14–19) on x-intervals. -/
def xIntersects (w1 w2 : ℚ × ℚ) (tol : ℚ) : Bool :=
  !(w1.2 + tol ≤ w2.1 - tol || w2.2 + tol ≤ w1.1 - tol)

/-- `ExtractColumnRange.filter_lines_above_threshold` (lines 11–12). -/
def filterLinesAboveThreshold (lines : List VLine) (yThreshold : ℚ) : List VLine :=
  lines.filter (fun l => yThreshold < l.bottom)

/-- The scan for the pair of consecutive sorted rules enclosing the
header center (extract-column-range.py, lines 37–43). -/
def findEnclosingPair : List VLine → ℚ → Option (ℚ × ℚ)
  | a :: b :: rest, c =>
      if a.x0 ≤ c && c ≤ b.x0 then some (a.x0, b.x0) else findEnclosingPair (b :: rest) c
  | _, _ => Option.none

/-- `ExtractColumnRange.get_column_range_based_on_lines`
(extract-column-range.py, lines 21–53): `None` when there are fewer
vertical rules than `len(headers) - 1`, else one range per header. -/
def getColumnRangeBasedOnLines (headers : List Hdr) (verticalLines : List VLine) :
    Option ColRanges :=
  if verticalLines.length < headers.length - 1 then Option.none
  else
    let sortedLines := pySorted (fun a b => decide (a.x0 ≤ b.x0)) verticalLines
    some (headers.foldl
      (fun acc header =>
        let headerCenter := (header.x0 + header.x1) / 2
        let lr :=
          match findEnclosingPair sortedLines headerCenter with
          | some p => p
          | Option.none => (header.x0, header.x1)
        crSet acc header.text lr)
      [])

/-- `ExtractColumnRange._is_valid_word` (lines 144–148). -/
def isValidWordCR (w : BWord) (pageHeight : ℚ) : Bool :=
  !(pageHeight * (1 - 6/100) ≤ w.top)

/-- `ExtractColumnRange.check_range_validity` (lines 150–157). -/
def checkRangeValidity (crs : ColRanges) (headerText : String) (range : ℚ × ℚ) : Bool :=
  crs.all (fun kv => kv.1 == headerText || !xIntersects range kv.2 0)

/-- The inner `for header in headers` loop of `get_column_range`
(lines 169–177); the `break` abandons the remaining headers for the
current word but keeps the ranges recorded so far. -/
def gcrHeaderLoop (word : BWord) (nLines lineThreshold : Nat) :
    ColRanges → List Hdr → ColRanges
  | hr, [] => hr
  | hr, h :: hs =>
      if xIntersects (word.x0, word.x1) (h.x0, h.x1) 0 then
        let x := (crGet hr h.text).getD (1000000, -1000000)
        let x0r := min word.x0 (min h.x0 x.1)
        let x1r := max word.x1 (max h.x1 x.2)
        if !checkRangeValidity hr h.text (x0r, x1r) && lineThreshold < nLines then hr
        else gcrHeaderLoop word nLines lineThreshold (crSet hr h.text (x0r, x1r)) hs
      else gcrHeaderLoop word nLines lineThreshold hr hs

/-- `ExtractColumnRange.get_column_range` (extract-column-range.py,
lines 158–178), the word-voting fallback, with the default
`line_threshold = 10`. -/
def getColumnRange (words : List BWord) (headers : List Hdr) (height : ℚ)
    (lineThreshold : Nat := 10) : ColRanges :=
  let currYBottom0 := match headers.map Hdr.bottom with
    | [] => 0
    | b :: bs => bs.foldl max b
  (words.foldl
    (fun (st : ColRanges × ℚ × Nat) word =>
      let yBottom := max word.bottom st.2.1
      let st' : ColRanges × ℚ × Nat :=
        if st.2.1 < yBottom then (st.1, yBottom, st.2.2 + 1) else st
      if !isValidWordCR word height then st'
      else (gcrHeaderLoop word st'.2.2 lineThreshold st'.1 headers, st'.2.1, st'.2.2))
    ([], currYBottom0, 0)).1

/-- `ExtractColumnRange.get_header_alignment` (lines 55–142). -/
def getHeaderAlignment (headerRange : ColRanges) (headers : List Hdr) : String :=
  if headerRange = [] || headers = [] then "center"
  else
    let scores := headers.foldl
      (fun (sc : Nat × Nat × Nat × Nat) header =>
        match crGet headerRange header.text with
        | Option.none => sc
        | some r =>
            let leftDistance := |header.x0 - r.1|
            let rightDistance := |header.x1 - r.2|
            let centerDistance := |(header.x0 + header.x1) / 2 - (r.1 + r.2) / 2|
            let tolerance : ℚ := 3
            if leftDistance ≤ tolerance && leftDistance ≤ rightDistance &&
                leftDistance ≤ centerDistance then
              (sc.1 + 1, sc.2.1, sc.2.2.1, sc.2.2.2 + 1)
            else if rightDistance ≤ tolerance && rightDistance ≤ leftDistance &&
                rightDistance ≤ centerDistance then
              (sc.1, sc.2.1 + 1, sc.2.2.1, sc.2.2.2 + 1)
            else if centerDistance ≤ tolerance && centerDistance ≤ leftDistance &&
                centerDistance ≤ rightDistance then
              (sc.1, sc.2.1, sc.2.2.1 + 1, sc.2.2.2 + 1)
            else
              let minDistance := min leftDistance (min rightDistance centerDistance)
              if minDistance == leftDistance then (sc.1 + 1, sc.2.1, sc.2.2.1, sc.2.2.2 + 1)
              else if minDistance == rightDistance then (sc.1, sc.2.1 + 1, sc.2.2.1, sc.2.2.2 + 1)
              else (sc.1, sc.2.1, sc.2.2.1 + 1, sc.2.2.2 + 1))
      (0, 0, 0, 0)
    if scores.2.2.2 = 0 then "center"
    else if scores.2.1 < scores.1 && scores.2.2.1 < scores.1 then "left"
    else if scores.1 < scores.2.1 && scores.2.2.1 < scores.2.1 then "right"
    else "center"

/-- `ExtractColumnRange.adjust_missing_ranges` (lines 180–214). -/
def adjustMissingRanges (headers : List Hdr) (colRanges : ColRanges) : ColRanges × String :=
  let dominantAlign := getHeaderAlignment colRanges headers
  let adjusted := (List.range headers.length).foldl
    (fun acc i =>
      match headers[i]? with
      | Option.none => acc
      | some header =>
          match crGet colRanges header.text with
          | some currentRange => crSet acc header.text currentRange
          | Option.none =>
              if dominantAlign == "left" && i + 1 < headers.length then
                match headers[i + 1]? with
                | some nextHeader =>
                    let nextX0 :=
                      match crGet colRanges nextHeader.text with
                      | some r => r.1
                      | Option.none => nextHeader.x0
                    crSet acc header.text (header.x0, max nextX0 header.x1)
                | Option.none => acc
              else if dominantAlign == "right" && 0 < i then
                match headers[i - 1]? with
                | some prevHeader =>
                    let prevX1 :=
                      match crGet colRanges prevHeader.text with
                      | some r => r.2
                      | Option.none => prevHeader.x1
                    crSet acc header.text (min prevX1 header.x0, header.x1)
                | Option.none => acc
              else crSet acc header.text (header.x0, header.x1))
    []
  (adjusted, dominantAlign)

/-- `ExtractColumnRange.adjust_start_and_end_header_range`
(lines 216–231): widen the first range to the far left and the last to
the far right. -/
def adjustStartAndEndHeaderRange (headers : List Hdr) (colRanges : ColRanges) : ColRanges :=
  let headersSorted := pySorted (fun a b => decide (a.x0 ≤ b.x0)) headers
  match headersSorted with
  | [] => colRanges
  | h :: t =>
      let firstKey := h.text
      let lastKey := (t.getLast?.getD h).text
      let cr1 :=
        match crGet colRanges firstKey with
        | some r => crSet colRanges firstKey (-100000, r.2)
        | Option.none => colRanges
      match crGet cr1 lastKey with
      | some r => crSet cr1 lastKey (r.1, 100000)
      | Option.none => cr1

/-- `ExtractColumnRange.correct_overlapped_headers` (lines 232–238):
for each adjacent header pair, clip the left header's range so its
right edge does not exceed the next header's `x0`.  The indexed
`for i in range(len(headers) - 1)` loop is rendered as structural
recursion over adjacent pairs; a header without a range would raise
`KeyError` in Python and cannot occur on the paths `run` takes
(`adjust_missing_ranges` has filled every header in). -/
def correctOverlappedHeaders : List Hdr → ColRanges → ColRanges
  | hi :: hj :: rest, cr =>
      let cr' :=
        match crGet cr hi.text with
        | some r =>
            if hj.x0 < r.2 then crSet cr hi.text (r.1, ((Int.floor hj.x0 : ℤ) : ℚ))
            else cr
        | Option.none => cr
      correctOverlappedHeaders (hj :: rest) cr'
  | _, cr => cr

/-- The word-voting path of `ExtractColumnRange.run`
(extract-column-range.py, lines 298–302). -/
def columnRangeWordVote (words : List BWord) (headers : List Hdr) (height : ℚ) : ColRanges :=
  (adjustMissingRanges headers (getColumnRange words headers height)).1

/-- One page of `ExtractColumnRange.run` (lines 287–305), non-copy
branch: try the rule-based ranges, fall back to word voting when they
are `None`/empty, then widen the outer edges and clip overlaps. -/
def extractColumnRangePage (words : List BWord) (headers : List Hdr)
    (verticalLines : List VLine) (height : ℚ) (pageNumber : Nat) : ColRanges :=
  let upperCutY := match headers with
    | h :: _ => if pageNumber == 0 then h.top else 0
    | [] => 0
  let filtered := filterLinesAboveThreshold verticalLines upperCutY
  let cr0 := getColumnRangeBasedOnLines headers filtered
  let cr1 :=
    match cr0 with
    | some m => if m = [] then columnRangeWordVote words headers height else m
    | Option.none => columnRangeWordVote words headers height
  correctOverlappedHeaders headers (adjustStartAndEndHeaderRange headers cr1)

/-! ## Stage 7 — `merge-rows.py` (MergeRows) guards -/

/-- Python truthiness of a row value. -/
def pyTruthy (v : Val) : Bool :=
  match v with
  | Val.none => false
  | Val.str s => !(s = "")
  | Val.num q => !(q = 0)

/-- `MergeRows._is_valid_date` (merge-rows.py, lines 497–506): falsy
values are invalid; otherwise the string is run through
`smart_date_parser` (default locale `"US"`) and "valid" means the
formatted result differs from the input.  A non-string value makes
`smart_date_parser` fall into its exception branch, which returns the
input unchanged, hence `false`. -/
def misValidDate (v : Val) : Bool :=
  match v with
  | Val.str s => if s = "" then false else !((smartDateParser s "US").1 == s)
  | _ => false

/-- `MergeRows._try_merge_text` (merge-rows.py, lines 489–495). -/
def tryMergeText (v1 v2 : Val) : Val :=
  if !pyTruthy v1 then v2
  else if !pyTruthy v2 then v1
  else Val.str (pyStrip (pyStrVal v1 ++ " " ++ pyStrVal v2))

/-- The date-conflict test of `_calculate_merge_confidence`
(merge-rows.py, lines 369–371): the −3 penalty applies only when both
the incomplete row's and the anchor's date are "valid". -/
def dateConflictPenaltyApplies (incompleteVal anchorVal : Val) : Bool :=
  misValidDate incompleteVal && misValidDate anchorVal

/-- The valid-date-creation test of `_calculate_merge_confidence`
(merge-rows.py, lines 391–396): the +0.1 bonus applies only when the
merged date text is truthy and "valid". -/
def dateBonusApplies (anchorDate incompleteDate : Val) : Bool :=
  let merged := tryMergeText anchorDate incompleteDate
  pyTruthy merged && misValidDate merged

/-! ## `utils/result_scorer.py` — `score_parsed_result` -/

/-- `std_key`: lowercase, drop the characters of the class `[ _./]`. -/
def stdKey (k : String) : String :=
  String.mk ((k.toList.map Char.toLower).filter
    (fun c => !(c == ' ' || c == '_' || c == '.' || c == '/')))

/-- `CREDIT_KEYS`. -/
def CREDIT_KEYS : List String := ["credit", "cramount", "cr"]

/-- `DEBIT_KEYS`. -/
def DEBIT_KEYS : List String := ["debit", "dramount", "dr"]

/-- `AMOUNT_KEYS`. -/
def AMOUNT_KEYS : List String := ["amount", "amt", "transactionamount", "txnamount"]

/-- `TYPE_KEYS`. -/
def TYPE_KEYS : List String := ["type", "txntype", "drcr", "crdr", "transactiontype"]

/-- `parse_money` (result_scorer.py, lines 18–32): strip, remove the
characters of `[,\s₹$€£]`, turn `(x)` into `-x`, parse as float. -/
def parseMoneyScorer (v : Val) : Option ℚ :=
  match v with
  | Val.none => Option.none
  | Val.num q => some q
  | Val.str s =>
      let s1 := pyStripList s.toList
      if s1 = [] then Option.none
      else
        let s2 := s1.filter
          (fun c => !(c == ',' || isPyWs c || c == '₹' || c == '$' || c == '€' || c == '£'))
        let s3 :=
          if s2.head? == some '(' && s2.getLast? == some ')' then
            '-' :: (s2.drop 1).dropLast
          else s2
        pyFloatQ s3

/-- `parse_type` (result_scorer.py, lines 34–42). -/
def parseTypeScorer (v : Val) : Option String :=
  match v with
  | Val.none => Option.none
  | _ =>
      let s := (pyStripList (pyUpper (pyStrVal v)).toList).filter (fun c => !(c == '.'))
      if isSubstrList "CREDIT".toList s || s == "CR".toList then some "CR"
      else if isSubstrList "DEBIT".toList s || s == "DR".toList then some "DR"
      else Option.none

/-- `extract_fields` (result_scorer.py, lines 44–63): classify each key
and synthesize a `(credit, debit)` pair. -/
def extractFields (row : Row) : ℚ × ℚ :=
  let st := row.foldl
    (fun (st : Option ℚ × Option ℚ × Option ℚ × Option String) kv =>
      let sk := stdKey kv.1
      if CREDIT_KEYS.contains sk then (parseMoneyScorer kv.2, st.2.1, st.2.2.1, st.2.2.2)
      else if DEBIT_KEYS.contains sk then (st.1, parseMoneyScorer kv.2, st.2.2.1, st.2.2.2)
      else if AMOUNT_KEYS.contains sk then (st.1, st.2.1, parseMoneyScorer kv.2, st.2.2.2)
      else if TYPE_KEYS.contains sk then (st.1, st.2.1, st.2.2.1, parseTypeScorer kv.2)
      else st)
    (Option.none, Option.none, Option.none, Option.none)
  match st with
  | (creditVal, debitVal, amountVal, typeVal) =>
      if creditVal.isSome || debitVal.isSome then (creditVal.getD 0, debitVal.getD 0)
      else
        match amountVal, typeVal with
        | some a, some t => if t == "CR" then (a, 0) else (0, |a|)
        | some a, Option.none => if 0 ≤ a then (a, 0) else (0, |a|)
        | Option.none, _ => (0, 0)

/-- Match `\d{1,2}` followed by a literal `-`, consuming the dash
(greedy with the regex's backtracking), as in strptime's `%m-`. -/
def digits12Dash : List Char → Option (Nat × List Char)
  | c1 :: c2 :: c3 :: rest =>
      if isDig c1 && isDig c2 && c3 == '-' then some (digVal c1 * 10 + digVal c2, rest)
      else if isDig c1 && c2 == '-' then some (digVal c1, c3 :: rest)
      else Option.none
  | [c1, c2] => if isDig c1 && c2 == '-' then some (digVal c1, []) else Option.none
  | _ => Option.none

/-- A final `\d{1,2}` consuming the whole remainder. -/
def digits12End : List Char → Option Nat
  | [c1] => if isDig c1 then some (digVal c1) else Option.none
  | [c1, c2] => if isDig c1 && isDig c2 then some (digVal c1 * 10 + digVal c2) else Option.none
  | _ => Option.none

/-- `parse_date` of the scorer (result_scorer.py, lines 65–69):
`datetime.strptime(str(val).strip(), "%Y-%m-%d")`; `%Y` is exactly four
digits, `%m`/`%d` one or two, and the datetime constructor validates
the calendar (year ≥ 1). -/
def parseDateScorer (v : Val) : Option YMD :=
  match pyStripList (pyStrVal v).toList with
  | y1 :: y2 :: y3 :: y4 :: '-' :: rest =>
      if [y1, y2, y3, y4].all isDig then
        match digits12Dash rest with
        | some (m, rest2) =>
            match digits12End rest2 with
            | some d =>
                let y := digitsToNat [y1, y2, y3, y4]
                if 1 ≤ y && validYMD y m d then some ⟨y, m, d⟩ else Option.none
            | Option.none => Option.none
        | Option.none => Option.none
      else Option.none
  | _ => Option.none

/-- `datetime` ordering (lexicographic on year, month, day). -/
def ymdLe (a b : YMD) : Bool :=
  a.year < b.year || (a.year == b.year &&
    (a.month < b.month || (a.month == b.month && a.day ≤ b.day)))

/-- `datetime.min` as used for rows with no parsed date. -/
def ymdMin : YMD := ⟨0, 0, 0⟩

/-- The mixed-order sort key comparison of result_scorer.py line 82:
`((parsed_dates[i] or datetime.min), i)` compared lexicographically. -/
def mixedKeyLe (parsedDates : List (Option YMD)) (a b : ℕ × Row) : Bool :=
  let ka := ((parsedDates[a.1]?).getD Option.none).getD ymdMin
  let kb := ((parsedDates[b.1]?).getD Option.none).getD ymdMin
  (ymdLe ka kb && !(ka == kb)) || (ka == kb && a.1 ≤ b.1)

/-- The consecutive-pair loop of `check_mode` (result_scorer.py,
lines 94–109): `prev` is `balances[i-1]`; returns `(matches, checks)`. -/
def checkModeGo (post : Bool) : Option ℚ → List (Option ℚ × ℚ × ℚ) → ℕ × ℕ
  | _, [] => (0, 0)
  | prev, (b, cr, dr) :: rest =>
      let mc := checkModeGo post b rest
      match prev, b with
      | some pb, some bb =>
          let expected := if post then pb + cr - dr else bb - cr + dr
          let actual := if post then bb else pb
          if |expected - actual| < 1/100 then (mc.1 + 1, mc.2 + 1) else (mc.1, mc.2 + 1)
      | _, _ => mc

/-- `check_mode`: the match ratio, `0.0` when there are no checks. -/
def checkMode (post : Bool) (balances : List (Option ℚ)) (credits debits : List ℚ) : ℚ :=
  match balances with
  | [] => 0
  | b0 :: brest =>
      let triples := brest.zip ((credits.drop 1).zip (debits.drop 1))
      let mc := checkModeGo post b0 (triples.map (fun t => (t.1, t.2.1, t.2.2)))
      if mc.2 = 0 then 0 else (mc.1 : ℚ) / (mc.2 : ℚ)

/-- The result record `{"score": ..., "mode": ...}`. -/
structure ScoreResult where
  score : ℚ
  mode : Option String
deriving DecidableEq, Repr

/-- `score_parsed_result` (result_scorer.py, lines 6–115). -/
def scoreParsedResult (rows : List Row) : ScoreResult :=
  if rows = [] then ⟨0, Option.none⟩
  else
    let parsedDates := rows.map (fun r => parseDateScorer ((rowGet r "date").getD Val.none))
    let validDates := parsedDates.filterMap id
    let sortedRows :=
      if 2 ≤ validDates.length then
        if validDates == pySorted ymdLe validDates then rows
        else if validDates == pySorted (fun a b => ymdLe b a) validDates then rows.reverse
        else (pySorted (mixedKeyLe parsedDates) rows.enum).map Prod.snd
      else rows
    let balances := sortedRows.map (fun r => parseMoneyScorer ((rowGet r "balance").getD Val.none))
    let credits := sortedRows.map (fun r => (extractFields r).1)
    let debits := sortedRows.map (fun r => (extractFields r).2)
    let postScore := checkMode true balances credits debits
    let preScore := checkMode false balances credits debits
    let mode := if preScore ≤ postScore then "post" else "pre"
    ⟨pyRound2 (10 * max postScore preScore), some mode⟩

/-! ## Stage 1 — `header-extraction.py` (HeaderExtraction)

The small anchored regexes of this module are rendered as decision
functions; each one matches by maximal munch, which agrees with the
regex because a shortened digit run always leaves a digit where a
separator or the end anchor is required. -/

/-- A word as handled by HeaderExtraction (`text`, `x0`, `x1`, `top`,
`bottom`, `height`). -/
structure HWord where
  text : String
  x0 : ℚ
  x1 : ℚ
  top : ℚ
  bottom : ℚ
  height : ℚ
deriving DecidableEq, Repr

/-- Regex `[A-Za-z]` (ASCII letter). -/
def isAsciiAlpha (c : Char) : Bool := ('A' ≤ c && c ≤ 'Z') || ('a' ≤ c && c ≤ 'z')

/-- `re.search(r'[A-Za-z]', text)`. -/
def containsAlpha (cs : List Char) : Bool := cs.any isAsciiAlpha

/-- Python `str.lower()` (ASCII model). -/
def pyLower (s : String) : String := String.mk (s.toList.map Char.toLower)

/-- Fullmatch of `[\d,]+\.?\d*`. -/
def matchNumBody (cs : List Char) : Bool :=
  let t1 := takeWhileSplit isDigComma cs
  if t1.1.isEmpty then false
  else
    match t1.2 with
    | [] => true
    | '.' :: r2 => (takeWhileSplit isDig r2).2.isEmpty
    | _ => false

/-- Fullmatch of `-?[\d,]+\.?\d*`. -/
def matchNumberRe (cs : List Char) : Bool :=
  match cs with
  | '-' :: r => matchNumBody r
  | _ => matchNumBody cs

/-- Fullmatch of `\d+`. -/
def matchAllDigits (cs : List Char) : Bool := !cs.isEmpty && cs.all isDig

/-- Fullmatch of `[₹$£€]\s*[\d,]+\.?\d*`. -/
def matchCurrencyRe (cs : List Char) : Bool :=
  match cs with
  | c :: rest =>
      (c == '₹' || c == '$' || c == '£' || c == '€') && matchNumBody (rest.dropWhile isPyWs)
  | [] => false

/-- Fullmatch of `(DR|CR)` with `IGNORECASE`. -/
def matchDRCR (cs : List Char) : Bool :=
  let up := cs.map Char.toUpper
  up == ['D', 'R'] || up == ['C', 'R']

/-- Consume a complete digit run whose length lies in `[lo, hi]`. -/
def matchDigitRun (lo hi : Nat) (cs : List Char) : Option (List Char) :=
  let t := takeWhileSplit isDig cs
  if lo ≤ t.1.length && t.1.length ≤ hi then some t.2 else Option.none

/-- Fullmatch of the date-shaped regexes: digit run, separator, digit
run, separator, digit run (separators are the dash-or-slash class). -/
def matchDateRe (lo1 hi1 lo2 hi2 lo3 hi3 : Nat) (cs : List Char) : Bool :=
  match matchDigitRun lo1 hi1 cs with
  | some (s1 :: r1) =>
      isSep s1 &&
        (match matchDigitRun lo2 hi2 r1 with
         | some (s2 :: r2) =>
             isSep s2 &&
               (match matchDigitRun lo3 hi3 r2 with
                | some [] => true
                | _ => false)
         | _ => false)
  | _ => false

/-- Fullmatch of `[(\[]?\d+[)\]]?`. -/
def matchNumberParen (cs : List Char) : Bool :=
  let cs1 := match cs with
    | c :: r => if c == '(' || c == '[' then r else cs
    | [] => []
  let t := takeWhileSplit isDig cs1
  !t.1.isEmpty &&
    (t.2 = [] || (match t.2 with | [c] => c == ')' || c == ']' | _ => false))

/-- Fullmatch of `[(\[].*[)\]]`. -/
def matchParenthetical (cs : List Char) : Bool :=
  match cs with
  | c :: rest =>
      (c == '(' || c == '[') &&
        (match rest.getLast? with
         | some l => l == ')' || l == ']'
         | Option.none => false)
  | [] => false

/-- `re.search(r'\b' + kw + r'\b', text)`: an occurrence of `kw` with
word boundaries on both sides (`prevC` is the character before the
current suffix). -/
def wbSearch (kw : List Char) : Option Char → List Char → Bool
  | prevC, cs =>
      let okPrev := match prevC with
        | Option.none => true
        | some c => !isWordChar c
      ((okPrev && kw.isPrefixOf cs &&
          (match cs.drop kw.length with
           | [] => true
           | c :: _ => !isWordChar c)) : Bool) ||
        (match cs with
         | [] => false
         | c :: rest => wbSearch kw (some c) rest)

/-- `len(text.split()) == 1`: exactly one whitespace-separated token,
i.e. non-empty after stripping with no internal whitespace. -/
def isSingleToken (cs : List Char) : Bool :=
  !(pyStripList cs).isEmpty && (pyStripList cs).all (fun c => !isPyWs c)

/-- `HeaderExtraction._get_header_keywords` (header-extraction.py,
lines 11–25); only membership is used, so the set is a list. -/
def HEADER_KEYWORDS : List String :=
  ["date", "description", "amount", "balance",
   "debit", "credit", "reference", "transaction",
   "details", "particulars", "deposit", "withdrawal",
   "memo", "check", "cheque", "cr", "dr",
   "narration", "remarks", "type", "mode",
   "value", "running", "opening", "closing",
   "txn", "ref", "no", "number", "serial",
   "posted", "effective", "available"]

/-- `header_phrases` of `_is_likely_header_word`. -/
def HEADER_PHRASES : List String :=
  ["transaction date", "value date", "posting date",
   "transaction details", "transaction description",
   "debit amount", "credit amount", "running balance",
   "reference number", "cheque number", "transaction id"]

/-- `data_prefixes` of `_is_likely_header_word`. -/
def DATA_PREFIXES : List String := ["opening", "closing", "available", "current", "total", "sub"]

/-- `HeaderExtraction._is_likely_header_word` (header-extraction.py,
lines 158–237). -/
def isLikelyHeaderWord (word : HWord) : Bool :=
  let text := pyLower word.text
  let textOriginal := word.text
  if matchDRCR textOriginal.toList && !textOriginal.toList.contains '/' then false
  else if matchDateRe 2 4 2 2 2 4 textOriginal.toList ||
      matchCurrencyRe textOriginal.toList ||
      matchNumberRe textOriginal.toList ||
      matchAllDigits textOriginal.toList then false
  else if DATA_PREFIXES.contains text then false
  else if DATA_PREFIXES.any (fun p =>
      (p ++ " ").toList.isPrefixOf text.toList &&
        (strIn "balance" text || strIn "amount" text)) then false
  else if HEADER_KEYWORDS.contains text && !text.toList.contains ' ' then true
  else if text.toList.contains ' ' then HEADER_PHRASES.contains text
  else if HEADER_KEYWORDS.any (fun kw => wbSearch kw.toList Option.none text.toList) &&
      isSingleToken text.toList then true
  else if (text == "no" || text == "no." || text == "#" || matchParenthetical text.toList) &&
      !matchNumberParen textOriginal.toList then true
  else false

/-- Minimum of a rational list with the head as seed (Python `min`). -/
def minListQ (d : ℚ) (xs : List ℚ) : ℚ := xs.foldl min d

/-- Maximum of a rational list with the head as seed (Python `max`). -/
def maxListQ (d : ℚ) (xs : List ℚ) : ℚ := xs.foldl max d

/-- `HeaderExtraction.detect_multiline_header_region`
(header-extraction.py, lines 103–156). -/
def detectMultilineHeaderRegion (words : List HWord) (seedRow : List HWord) : List HWord :=
  match seedRow with
  | [] => seedRow
  | s0 :: _ =>
      let seedTop := minListQ s0.top (seedRow.map HWord.top)
      let seedBottom := maxListQ s0.bottom (seedRow.map HWord.bottom)
      let avgHeight := (seedRow.map HWord.height).sum / (seedRow.length : ℚ)
      let adjacent := words.filter (fun word =>
        let wordText := pyStrip word.text
        if seedTop - avgHeight * (8/10) ≤ word.top && word.top < seedTop - 2 then
          isLikelyHeaderWord word
        else if seedBottom + 2 < word.top && word.top ≤ seedBottom + avgHeight * (3/10) then
          let isNumber := matchNumberRe wordText.toList
          let isDate := matchDateRe 1 4 1 2 1 4 wordText.toList
          let isCurrency := matchCurrencyRe wordText.toList
          let isTransactionCode := matchDRCR wordText.toList
          let isContextualPhrase := ["opening", "closing", "available", "current"].any
            (fun p => strIn p (pyLower wordText))
          if isNumber || isDate || isCurrency || isTransactionCode || isContextualPhrase then
            false
          else
            let wordXCenter := (word.x0 + word.x1) / 2
            let isAligned := seedRow.any
              (fun w => |wordXCenter - (w.x0 + w.x1) / 2| < avgHeight * 2)
            isAligned && isLikelyHeaderWord word &&
              containsAlpha wordText.toList && wordText.length < 20
        else false)
      seedRow ++ adjacent

/-- The merge scan of `merge_header_text_horizontally` (lines 85–100). -/
def mhtGo (xTolerance : ℚ) : HWord → List HWord → List HWord
  | current, [] => [current]
  | current, h :: rest =>
      let gap := h.x0 - current.x1
      if gap ≤ xTolerance && -2 ≤ gap then
        mhtGo xTolerance { current with text := current.text ++ " " ++ h.text, x1 := h.x1 } rest
      else current :: mhtGo xTolerance h rest

/-- `HeaderExtraction.merge_header_text_horizontally`
(header-extraction.py, lines 68–101) with `adaptive_tolerance=True`. -/
def mergeHeaderTextHorizontally (headers : List HWord) : List HWord :=
  match pySorted (fun a b => decide (a.x0 ≤ b.x0)) headers with
  | [] => headers
  | h0 :: hrest =>
      let xTolerance :=
        if 1 < headers.length then
          ((headers.map (fun h => (h.x1 - h.x0) / ((max h.text.length 1 : Nat) : ℚ))).sum /
              (headers.length : ℚ)) * 2
        else 6
      mhtGo xTolerance h0 hrest

/-- `HeaderExtraction.calculate_column_boundaries`
(header-extraction.py, lines 27–66). -/
def calculateColumnBoundaries (words : List HWord) : List (ℚ × ℚ) :=
  match words.flatMap (fun w => [w.x0, w.x1]) with
  | [] => []
  | xp0 :: _ =>
      let xPositions := pySorted (fun a b => decide (a ≤ b)) (words.flatMap (fun w => [w.x0, w.x1]))
      let gaps := (xPositions.zip xPositions.tail).filterMap (fun p =>
        if 10 < p.2 - p.1 then some (p.1, p.2, p.2 - p.1) else Option.none)
      if gaps ≠ [] then
        let gapSizes := gaps.map (fun g => g.2.2)
        let medianGap := ((pySorted (fun a b => decide (a ≤ b)) gapSizes)[gapSizes.length / 2]?).getD 0
        let st := gaps.foldl
          (fun (st : List (ℚ × ℚ) × ℚ) g =>
            if medianGap * (3/2) < g.2.2 then (st.1 ++ [(st.2, g.1)], g.2.1) else st)
          ([], 0)
        st.1 ++ [(st.2, maxListQ xp0 xPositions)]
      else [(minListQ xp0 xPositions, maxListQ xp0 xPositions)]

/-- `defaultdict(list)` append with insertion-ordered keys. -/
def columnsAppend (m : List (Nat × List HWord)) (i : Nat) (h : HWord) : List (Nat × List HWord) :=
  match m with
  | [] => [(i, [h])]
  | p :: ps => if p.1 == i then (p.1, p.2 ++ [h]) :: ps else p :: columnsAppend ps i h

/-- The first column interval containing the center, with its index
(header-extraction.py, lines 252–256). -/
def findColumnIndex (boundaries : List (ℚ × ℚ)) (xc : ℚ) : Option Nat :=
  (boundaries.foldl
    (fun (st : Option Nat × Nat) b =>
      match st.1 with
      | some _ => st
      | Option.none =>
          if b.1 ≤ xc && xc ≤ b.2 then (some st.2, st.2 + 1) else (Option.none, st.2 + 1))
    (Option.none, 0)).1

/-- The per-column vertical merge scan of
`merge_multiline_headers_by_column` (lines 267–301): a data-looking
tail closes the current header; a close non-data tail is appended to
the text (or silently dropped when too short), keeping the original
bottom. -/
def goMergeCol : HWord → List HWord → List HWord
  | current, [] => [current]
  | current, h :: rest =>
      let gap := h.top - current.bottom
      let headerText := pyStrip h.text
      let isNumber := matchNumberRe headerText.toList
      let isDate := matchDateRe 1 4 1 2 1 4 headerText.toList
      let isCurrency := matchCurrencyRe headerText.toList
      let isSingleDigit := match headerText.toList with
        | [c] => isDig c
        | _ => false
      let isTransactionCode := matchDRCR headerText.toList
      if isNumber || isDate || isCurrency || isSingleDigit || isTransactionCode then
        current :: goMergeCol h rest
      else
        let avgHeight := (current.height + h.height) / 2
        if 0 ≤ gap && gap ≤ avgHeight * (1/2) then
          if 1 < headerText.length && !(["/", "-", "|", "(", ")"].contains headerText) then
            goMergeCol { current with text := current.text ++ " " ++ h.text } rest
          else goMergeCol current rest
        else current :: goMergeCol h rest

/-- `HeaderExtraction.merge_multiline_headers_by_column`
(header-extraction.py, lines 239–304). -/
def mergeMultilineHeadersByColumn (headers : List HWord) : List HWord :=
  if headers = [] then headers
  else
    let boundaries := calculateColumnBoundaries headers
    let columns := headers.foldl
      (fun m h =>
        let xc := (h.x0 + h.x1) / 2
        match findColumnIndex boundaries xc with
        | some i => columnsAppend m i h
        | Option.none => m)
      []
    columns.flatMap (fun kv =>
      match pySorted (fun a b => decide (a.top ≤ b.top)) kv.2 with
      | [] => []
      | h0 :: rest => goMergeCol h0 rest)

/-- `HeaderExtraction.filter_and_clean_headers` (header-extraction.py,
lines 308–331). -/
def filterAndCleanHeaders (headers : List HWord) : List HWord :=
  headers.filterMap (fun header =>
    let text := pyStrip header.text
    if !containsAlpha text.toList then Option.none
    else if matchNumBody text.toList then Option.none
    else if 50 < text.length then Option.none
    else some { header with text := text })

/-- `HeaderExtraction.score_header_row` (header-extraction.py,
lines 333–384) with the default `page_width = 600`. -/
def scoreHeaderRow (rowWords : List HWord) : ℚ :=
  let pageWidth : ℚ := 600
  let keywordMatches : Nat := rowWords.foldl
    (fun acc w =>
      let tl := pyLower w.text
      if HEADER_KEYWORDS.contains tl then acc + 2
      else if HEADER_KEYWORDS.any (fun kw => strIn kw tl) then acc + 1
      else acc)
    0
  let score : ℚ := (keywordMatches : ℚ) * 10
  let numWords := rowWords.length
  let score := if 3 ≤ numWords && numWords ≤ 8 then score + 15
    else if 8 < numWords then score - 5 else score
  let score :=
    if 2 ≤ numWords then
      match rowWords.map HWord.x0 with
      | [] => score
      | x :: xs =>
          if 6/10 < (maxListQ x xs - minListQ x xs) / pageWidth then score + 10 else score
    else score
  let rowText := String.intercalate " " (rowWords.map (fun w => pyLower w.text))
  let score :=
    if strIn "date" rowText &&
        (strIn "amount" rowText || strIn "debit" rowText || strIn "credit" rowText) then
      score + 20
    else score
  let score := if strIn "balance" rowText then score + 10 else score
  let numbersCount := (rowWords.filter (fun w => matchNumBody w.text.toList)).length
  let score := if (rowWords.length : ℚ) * (1/2) < (numbersCount : ℚ) then score - 15 else score
  let dateCount := (rowWords.filter (fun w => matchDateRe 2 2 2 2 2 4 w.text.toList)).length
  if 1 < dateCount then score - 20 else score

/-- The insertion step of `_group_words_into_rows`: append to the first
row key within tolerance, else open a new row keyed by this top. -/
def rowsInsert (tol : ℚ) (rows : List (ℚ × List HWord)) (w : HWord) : List (ℚ × List HWord) :=
  match rows with
  | [] => [(w.top, [w])]
  | p :: ps => if |w.top - p.1| ≤ tol then (p.1, p.2 ++ [w]) :: ps else p :: rowsInsert tol ps w

/-- `HeaderExtraction._group_words_into_rows` (header-extraction.py,
lines 439–458). -/
def groupWordsIntoRows (words : List HWord) (tol : ℚ) : List (ℚ × List HWord) :=
  (pySorted (fun a b => decide (a.top ≤ b.top)) words).foldl (rowsInsert tol) []

/-- `HeaderExtraction._extract_headers` (header-extraction.py,
lines 386–437); the unused `page_num` parameter is omitted. -/
def extractHeaders (words : List HWord) : List HWord :=
  if words = [] then []
  else
    let rows := groupWordsIntoRows words 5
    let headerCandidates : List (ℚ × ℚ × List HWord) := rows.filterMap (fun kv =>
      let rowWords := pySorted (fun a b => decide (a.x0 ≤ b.x0)) kv.2
      let hasKeyword := rowWords.any (fun w => HEADER_KEYWORDS.contains (pyLower w.text))
      if hasKeyword || 3 ≤ rowWords.length then
        let score := scoreHeaderRow rowWords
        if 0 < score then some (score, kv.1, rowWords) else Option.none
      else Option.none)
    match pySorted (fun a b => decide (b.1 ≤ a.1)) headerCandidates with
    | [] => []
    | best :: _ =>
        let finalHeaders :=
          if 30 < best.1 then
            let extendedWords := detectMultilineHeaderRegion words best.2.2
            let mergedHorizontal := mergeHeaderTextHorizontally extendedWords
            if best.2.2.length < extendedWords.length then
              mergeMultilineHeadersByColumn mergedHorizontal
            else mergedHorizontal
          else mergeHeaderTextHorizontally best.2.2
        filterAndCleanHeaders finalHeaders

/-- The single record emitted by stage 1. -/
structure HeadersResult where
  headers : List HWord
  sourcePage : Nat
  totalWords : Nat
deriving DecidableEq, Repr

/-- An error raised by a step: either a plain `Exception` or a
`UserFacingError` (v2/exceptions.py). -/
inductive StepError where
  | genericExc : String → StepError
  | userFacing : String → StepError
deriving DecidableEq, Repr

/-- `ErrorMessages.HEADERS_NOT_FOUND`. -/
def HEADERS_NOT_FOUND : String := "Unable to find headers"

/-- The message of the plain `Exception` raised by
`HeaderExtraction.run` when no page has words. -/
def IMAGE_BASED_MSG : String := "PDF is likely image-based - no extractable text found"

/-- The page loop of `HeaderExtraction.run` (header-extraction.py,
lines 460–489): accumulate word counts, skip wordless pages, emit the
headers of the first page with words (sorted by `(top, x0)`) and stop;
raise a plain `Exception` when no page produced any word. -/
def headerExtractionRunGo : Nat → Nat → List (List HWord) → Except StepError HeadersResult
  | _, _, [] => Except.error (StepError.genericExc IMAGE_BASED_MSG)
  | i, total, ws :: rest =>
      let total' := total + ws.length
      if ws = [] then headerExtractionRunGo (i + 1) total' rest
      else
        let sortedWords := pySorted
          (fun a b => decide (a.top < b.top) || (a.top == b.top && decide (a.x0 ≤ b.x0))) ws
        Except.ok ⟨extractHeaders sortedWords, i, total'⟩

/-- `HeaderExtraction.run` over the per-page word lists. -/
def headerExtractionRun (pages : List (List HWord)) : Except StepError HeadersResult :=
  headerExtractionRunGo 0 0 pages

/-- The input guard of `HeaderRecognition.run` (header-recognition.py,
lines 62–75): take the first record of the `headers` stream and raise
`UserFacingError(HEADERS_NOT_FOUND)` only when the stream is empty (a
yielded record is a non-empty dict, hence truthy, whatever its
`headers` list contains). -/
def headerRecognitionGuard (input : List HeadersResult) : Except StepError HeadersResult :=
  match input with
  | [] => Except.error (StepError.userFacing HEADERS_NOT_FOUND)
  | h :: _ => Except.ok h

/-! ## Supporting lemmas -/

theorem rowGet_rowSet_ne (r : Row) (k k' : String) (v : Val) (h : k' ≠ k) :
    rowGet (rowSet r k v) k' = rowGet r k' := by
  have hb : (k == k') = false := by simp [Ne.symm h]
  induction r with
  | nil => simp [rowSet, rowGet, List.find?, hb]
  | cons p ps ih =>
      by_cases hp : p.1 = k
      · simp [rowSet, hp, rowGet, List.find?, hb]
      · simp only [rowSet, hp]
        simp only [beq_iff_eq, hp, if_false]
        by_cases hp' : p.1 = k'
        · simp [rowGet, List.find?, hp']
        · simp only [rowGet, List.find?] at ih ⊢
          have : (p.1 == k') = false := by simp [hp']
          rw [this]
          exact ih

theorem rowIsNull_rowSet_ne (r : Row) (k k' : String) (v : Val) (h : k' ≠ k) :
    rowIsNull (rowSet r k v) k' = rowIsNull r k' := by
  unfold rowIsNull
  rw [rowGet_rowSet_ne r k k' v h]

theorem crGet_crSet_self (m : ColRanges) (k : String) (v : ℚ × ℚ) :
    crGet (crSet m k v) k = some v := by
  induction m with
  | nil => simp [crSet, crGet, List.find?]
  | cons p ps ih =>
      by_cases hp : p.1 = k
      · simp [crSet, hp, crGet, List.find?]
      · simp only [crSet, beq_iff_eq, hp, if_false]
        simp only [crGet, List.find?] at ih ⊢
        have : (p.1 == k) = false := by simp [hp]
        rw [this]
        exact ih

theorem crGet_crSet_ne (m : ColRanges) (k k' : String) (v : ℚ × ℚ) (h : k' ≠ k) :
    crGet (crSet m k v) k' = crGet m k' := by
  have hb : (k == k') = false := by simp [Ne.symm h]
  induction m with
  | nil => simp [crSet, crGet, List.find?, hb]
  | cons p ps ih =>
      by_cases hp : p.1 = k
      · simp [crSet, hp, crGet, List.find?, hb]
      · simp only [crSet, beq_iff_eq, hp, if_false]
        by_cases hp' : p.1 = k'
        · simp [crGet, List.find?, hp']
        · simp only [crGet, List.find?] at ih ⊢
          have : (p.1 == k') = false := by simp [hp']
          rw [this]
          exact ih

theorem crGet_crSet_isSome (m : ColRanges) (k k' : String) (v : ℚ × ℚ)
    (h : (crGet m k').isSome) : (crGet (crSet m k v) k').isSome := by
  by_cases hk : k' = k
  · subst hk; rw [crGet_crSet_self]; rfl
  · rw [crGet_crSet_ne m k k' v hk]; exact h

theorem crSet_ne_nil (m : ColRanges) (k : String) (v : ℚ × ℚ) : crSet m k v ≠ [] := by
  cases m with
  | nil => simp [crSet]
  | cons p ps => simp only [crSet]; split <;> simp

/-! ## Claim theorems -/

/-- C5 (counterexample): the claim says `"(100.00)"` is typed as
`-100.0`, but `currency_string_to_float` has no parenthesis handling —
it extracts the float-shaped substring `100.00` and returns `+100.0`. -/
theorem currencyStringToFloat_paren_cex :
    currencyStringToFloat (Val.str "(100.00)") = some 100 ∧
    currencyStringToFloat (Val.str "(100.00)") ≠ some (-100) := by
  decide

/-- C5 (amended): stage 8's numeric typing extracts the *last*
float-shaped substring, removes thousands separators, and yields null
on failure; parenthesized values are NOT negated — `"(100.00)"` is
typed as `+100.0`. -/
theorem currencyStringToFloat_behavior :
    currencyStringToFloat (Val.str "abc 12.5 xyz 7.25") = some (29/4) ∧
    currencyStringToFloat (Val.str "1,234.56") = some (30864/25) ∧
    currencyStringToFloat (Val.str "Cr 1,000.50") = some (2001/2) ∧
    currencyStringToFloat (Val.str "abc") = Option.none ∧
    currencyStringToFloat (Val.str "") = Option.none ∧
    currencyStringToFloat Val.none = Option.none ∧
    currencyStringToFloat (Val.num 5) = Option.none ∧
    currencyStringToFloat (Val.str "(100.00)") = some 100 := by
  decide

/-- C9 (counterexample): the dotted-filler split is *not* the identity
on every word list free of 3-dot runs — a pure hyphen filler `"-"`
(no dots at all) is dropped. -/
theorem cleanDotPaddedWords_cex :
    cleanDotPaddedWords [⟨"-", 0, 1, 0, 1, 0⟩] = [] ∧
    ([] : List CWord) ≠ [⟨"-", 0, 1, 0, 1, 0⟩] := by
  decide

/-- C9 (amended): on words whose texts have no `.{3,}` run, are not
pure `i`-fillers, and are not pure hyphen fillers, stage 3's
dotted-filler split is the identity. -/
theorem cleanDotPaddedWords_identity (words : List CWord)
    (h : ∀ w ∈ words, hasDotRun3 w.text.toList = false ∧ isFakeIFiller w.text = false ∧
      isFakeHyphenFiller w.text = false) :
    cleanDotPaddedWords words = words := by
  induction words with
  | nil => rfl
  | cons w ws ih =>
      obtain ⟨h1, h2, h3⟩ := h w (by simp)
      have ih' := ih (fun w' hw' => h w' (by simp [hw']))
      unfold cleanDotPaddedWords at ih' ⊢
      simp only [List.flatMap_cons, h1, h2, h3, Bool.false_eq_true, if_false, Bool.or_self,
        ih']
      rfl

/-- Witness for C9's amended theorem at a concrete word list. -/
theorem cleanDotPaddedWords_identity_witness :
    cleanDotPaddedWords [⟨"hello", 0, 5, 0, 1, 0⟩, ⟨"1.50", 6, 9, 0, 1, 0⟩] =
      [⟨"hello", 0, 5, 0, 1, 0⟩, ⟨"1.50", 6, 9, 0, 1, 0⟩] :=
  cleanDotPaddedWords_identity _ (by decide)

/-- C8 (code_bug): stage 6 merges two vertically-close `particulars`
words even though a horizontal rule at `y = 11` lies strictly between
the first word's bottom (10) and the second's top (12) — `run` never
populates `self.horizontal_lines` from the page, so `group_rows`
checks the empty list.  Had the rule been given to `group_rows`
(third conjunct), the words would not have merged. -/
theorem buildRows_merges_across_rule :
    buildRowsPage [("particulars", [⟨"a", 0, 10, 0, 10⟩, ⟨"b", 0, 10, 12, 22⟩])] =
      [[("particulars", Val.str "a b"), ("y_top", Val.num 0), ("y_bottom", Val.num 22),
        ("x_left", Val.num 0), ("x_right", Val.num 10)]] ∧
    ((10 : ℚ) < 11 ∧ (11 : ℚ) < 12) ∧
    groupRows [⟨11⟩] 3 [("particulars", [⟨"a", 0, 10, 0, 10⟩, ⟨"b", 0, 10, 12, 22⟩])] =
      [("particulars", [some ⟨"a", 0, 10, 0, 10⟩, some ⟨"b", 0, 10, 12, 22⟩])] := by
  decide

/-- C2 (counterexample): stage 4's finalized ranges of two distinct
headers *can* overlap.  With headers `date [0,10]` and `balance
[50,60]`, a single wide word `[5,55]` makes word-voting assign
`date ↦ [0,55]` and `balance ↦ [5,60]` (the overlap guard is inert
below 10 traversed lines); finalization then emits
`date ↦ (−100000, 50)` and `balance ↦ (5, 100000)`, which intersect. -/
theorem columnRange_overlap_cex :
    extractColumnRangePage [⟨"w", 5, 55, 20, 30⟩]
        [⟨"date", 0, 10, 0, 10⟩, ⟨"balance", 50, 60, 0, 10⟩] [] 1000 0 =
      [("date", (-100000, 50)), ("balance", (5, 100000))] ∧
    xIntersects (-100000, 50) (5, 100000) 0 = true := by
  decide

/-- C4 (counterexample): a page *with* words but zero header candidates
does not fail the pipeline — stage 1 yields a record with an empty
header list, and stage 2's guard accepts any yielded record, so
`HeadersNotFoundError` is not raised. -/
theorem headerExtraction_empty_headers_cex :
    headerExtractionRun [[⟨"zzz", 0, 5, 0, 10, 10⟩]] =
      Except.ok ⟨[], 0, 1⟩ ∧
    headerRecognitionGuard [⟨[], 0, 1⟩] = Except.ok ⟨[], 0, 1⟩ :=
  ⟨rfl, rfl⟩

/-- C7 (counterexample): with exactly 3 vertical rules and 4 headers
the rule-based primary method *is* used (3 ≥ 4 − 1): it returns a
non-`None`, non-empty range dict, so `run` does not fall back to word
voting, and the page's final ranges come from the rule positions
(second conjunct) — not from the word-voting path (third conjunct). -/
theorem threeRules_fourHeaders_cex :
    getColumnRangeBasedOnLines
        [⟨"date", 0, 10, 0, 10⟩, ⟨"particulars", 20, 30, 0, 10⟩,
         ⟨"debit", 40, 50, 0, 10⟩, ⟨"balance", 60, 70, 0, 10⟩]
        [⟨15, 100⟩, ⟨35, 100⟩, ⟨55, 100⟩] =
      some [("date", (0, 10)), ("particulars", (15, 35)),
            ("debit", (35, 55)), ("balance", (60, 70))] ∧
    extractColumnRangePage []
        [⟨"date", 0, 10, 0, 10⟩, ⟨"particulars", 20, 30, 0, 10⟩,
         ⟨"debit", 40, 50, 0, 10⟩, ⟨"balance", 60, 70, 0, 10⟩]
        [⟨15, 100⟩, ⟨35, 100⟩, ⟨55, 100⟩] 1000 1 =
      [("date", (-100000, 10)), ("particulars", (15, 35)),
       ("debit", (35, 55)), ("balance", (60, 100000))] ∧
    extractColumnRangePage []
        [⟨"date", 0, 10, 0, 10⟩, ⟨"particulars", 20, 30, 0, 10⟩,
         ⟨"debit", 40, 50, 0, 10⟩, ⟨"balance", 60, 70, 0, 10⟩]
        [⟨15, 100⟩, ⟨35, 100⟩, ⟨55, 100⟩] 1000 1 ≠
      correctOverlappedHeaders
        [⟨"date", 0, 10, 0, 10⟩, ⟨"particulars", 20, 30, 0, 10⟩,
         ⟨"debit", 40, 50, 0, 10⟩, ⟨"balance", 60, 70, 0, 10⟩]
        (adjustStartAndEndHeaderRange
          [⟨"date", 0, 10, 0, 10⟩, ⟨"particulars", 20, 30, 0, 10⟩,
           ⟨"debit", 40, 50, 0, 10⟩, ⟨"balance", 60, 70, 0, 10⟩]
          (columnRangeWordVote []
            [⟨"date", 0, 10, 0, 10⟩, ⟨"particulars", 20, 30, 0, 10⟩,
             ⟨"debit", 40, 50, 0, 10⟩, ⟨"balance", 60, 70, 0, 10⟩] 1000)) := by
  decide

theorem normLocale_cases (s : String) : normLocale s = "US" ∨ normLocale s = "EU" := by
  by_cases h0 : s = ""
  · simp [normLocale, h0]
  · by_cases h1 : pyUpper (pyStrip s) ∈ EU_ALIASES
    · simp [normLocale, h0, h1]
    · by_cases h2 : pyUpper (pyStrip s) ∈ US_ALIASES
      · simp [normLocale, h0, h1, h2]
      · by_cases h3 : (pyUpper (pyStrip s)).startsWith "EU" = true ∨
            (pyUpper (pyStrip s)).startsWith "IN" = true
        · simp [normLocale, h0, h1, h2, h3]
        · simp [normLocale, h0, h1, h2, h3]

theorem smartDateParser_locale_cases (s d : String) :
    (smartDateParser s d).2 = "US" ∨ (smartDateParser s d).2 = "EU" := by
  unfold smartDateParser
  cases h : inferDayfirstFromHead s with
  | none =>
      cases h2 : dateutilParse s (normLocale d == "EU") with
      | none => simp [h2]
      | some ymd =>
          simp only [h2]
          exact normLocale_cases d
  | some df =>
      cases h2 : dateutilParse s df with
      | none => simp [h2]
      | some ymd => cases df <;> simp [h2]

theorem dateFold_eq (l : List String) (acc : Option String) :
    l.foldl
      (fun acc d =>
        let fmt := (smartDateParser d "US").2
        if fmt == "US" then acc else some fmt)
      acc =
      if l.any (fun d => (smartDateParser d "US").2 == "EU") then some "EU" else acc := by
  induction l generalizing acc with
  | nil => simp
  | cons d t ih =>
      rw [List.foldl_cons, ih]
      rcases smartDateParser_locale_cases d "US" with h | h <;>
        by_cases ha : (t.any fun d => (smartDateParser d "US").2 == "EU") = true <;>
          simp [h, ha, List.any_cons]

/-- C6 (counterexample): the sample `"31/03/2021"` is unambiguous and
day-first (locale EU), yet with the country override `"US"` the
detected document locale is `"US"` — the country override takes
precedence over the samples, contrary to the claim. -/
theorem getDateCountryFormat_cex :
    getDateCountryFormat ["31/03/2021"] (some "US") = "US" ∧
    (smartDateParser "31/03/2021" "US").2 = "EU" := by
  decide

/-- C6 (amended): in stage 8's date-locale detection the country
override is applied *first* (`US ↦ US`, `EU, IN ↦ EU`); the sampled
dates are consulted only when the country is none of these, and then
the locale is `"EU"` exactly when some sample yields locale `"EU"`
under `smart_date_parser` with default `"US"`, else `"US"`. -/
theorem getDateCountryFormat_characterization (dates : List String) (country : Option String) :
    getDateCountryFormat dates country =
      if country = some "US" then "US"
      else if country = some "EU" ∨ country = some "IN" then "EU"
      else if dates.any (fun d => (smartDateParser d "US").2 == "EU") then "EU" else "US" := by
  cases country with
  | none =>
      simp only [getDateCountryFormat, DATE_FORMAT_MAP, List.foldl_cons, List.foldl_nil]
      rw [dateFold_eq]
      by_cases hany : (dates.any fun d => (smartDateParser d "US").2 == "EU") = true
      · simp [hany]
      · simp [hany]
  | some c =>
      by_cases h1 : c = "US"
      · subst h1
        simp [getDateCountryFormat, DATE_FORMAT_MAP]
      · by_cases h2 : c = "EU"
        · subst h2
          simp [getDateCountryFormat, DATE_FORMAT_MAP]
        · by_cases h3 : c = "IN"
          · subst h3
            simp [getDateCountryFormat, DATE_FORMAT_MAP]
          · simp only [getDateCountryFormat, DATE_FORMAT_MAP, List.foldl_cons,
              List.foldl_nil]
            have hc1 : (["US"] : List String).contains c = false := by simp [h1]
            have hc2 : (["EU", "IN"] : List String).contains c = false := by simp [h2, h3]
            rw [hc1, hc2, dateFold_eq]
            by_cases hany : (dates.any fun d => (smartDateParser d "US").2 == "EU") = true
            · simp [hany, h1, h2, h3]
            · simp [hany, h1, h2, h3]

/-- C7 (amended): the rule-based primary method of stage 4 returns
`None` exactly when there are fewer vertical rules than
`len(headers) − 1`; whenever there are at least that many (so in
particular for 3 rules and 4 headers) it returns a non-empty range
dict, and `run` therefore does not fall back to word voting. -/
theorem getColumnRangeBasedOnLines_none_iff (headers : List Hdr) (lines : List VLine) :
    (getColumnRangeBasedOnLines headers lines = Option.none ↔
      lines.length < headers.length - 1) ∧
    (headers ≠ [] → headers.length - 1 ≤ lines.length →
      ∃ m, getColumnRangeBasedOnLines headers lines = some m ∧ m ≠ []) := by
  have foldl_ne : ∀ (f : ColRanges → Hdr → ColRanges), (∀ acc a, f acc a ≠ []) →
      ∀ (l : List Hdr) (acc : ColRanges), (acc ≠ [] ∨ l ≠ []) → l.foldl f acc ≠ [] := by
    intro f hf l
    induction l with
    | nil =>
        intro acc h
        rcases h with h | h
        · exact h
        · exact absurd rfl h
    | cons a t ih =>
        intro acc _
        simp only [List.foldl_cons]
        exact ih (f acc a) (Or.inl (hf acc a))
  constructor
  · unfold getColumnRangeBasedOnLines
    split_ifs with h
    · simp [h]
    · simp [h]
  · intro hne hlen
    unfold getColumnRangeBasedOnLines
    rw [if_neg (by omega)]
    refine ⟨_, rfl, ?_⟩
    apply foldl_ne
    · intro acc a
      exact crSet_ne_nil _ _ _
    · exact Or.inr hne

/-- Witness for C7's amended theorem: 3 rules, 4 headers — the
rule-based method yields a usable (non-`None`, non-empty) result. -/
theorem getColumnRangeBasedOnLines_none_iff_witness :
    ∃ m, getColumnRangeBasedOnLines
        [⟨"date", 0, 10, 0, 10⟩, ⟨"particulars", 20, 30, 0, 10⟩,
         ⟨"debit", 40, 50, 0, 10⟩, ⟨"balance", 60, 70, 0, 10⟩]
        [⟨15, 100⟩, ⟨35, 100⟩, ⟨55, 100⟩] = some m ∧ m ≠ [] :=
  (getColumnRangeBasedOnLines_none_iff
    [⟨"date", 0, 10, 0, 10⟩, ⟨"particulars", 20, 30, 0, 10⟩,
     ⟨"debit", 40, 50, 0, 10⟩, ⟨"balance", 60, 70, 0, 10⟩]
    [⟨15, 100⟩, ⟨35, 100⟩, ⟨55, 100⟩]).2 (by decide) (by decide)

/-- C4 (amended): stage 1 fails — with a plain `Exception` whose
message says the PDF is likely image-based, not a typed
`PdfImageBasedError` — exactly when *no* page produces any word; when
some page has words it emits that page's (possibly empty) header list
without raising, and stage 2's `HeadersNotFoundError` guard accepts
every emitted record. -/
theorem headerExtraction_failure_modes (pages : List (List HWord)) :
    (headerExtractionRun pages = Except.error (StepError.genericExc IMAGE_BASED_MSG) ↔
      ∀ p ∈ pages, p = []) ∧
    (∀ res, headerExtractionRun pages = Except.ok res →
      headerRecognitionGuard [res] = Except.ok res) := by
  constructor
  · unfold headerExtractionRun
    have key : ∀ (ps : List (List HWord)) (i total : Nat),
        (headerExtractionRunGo i total ps =
            Except.error (StepError.genericExc IMAGE_BASED_MSG) ↔
          ∀ p ∈ ps, p = []) := by
      intro ps
      induction ps with
      | nil => intro i total; simp [headerExtractionRunGo]
      | cons ws rest ih =>
          intro i total
          by_cases hws : ws = []
          · subst hws
            simp [headerExtractionRunGo, ih]
          · simp [headerExtractionRunGo, hws]
    exact key pages 0 0
  · intro res h
    rfl

/-- Witness for C4's amended theorem: two wordless pages trigger the
image-based failure. -/
theorem headerExtraction_failure_modes_witness :
    headerExtractionRun [([] : List HWord), []] =
      Except.error (StepError.genericExc IMAGE_BASED_MSG) :=
  (headerExtraction_failure_modes [[], []]).1.mpr (by simp)

theorem correctOverlapped_untouched (k : String) :
    ∀ (hs : List Hdr) (cr : ColRanges), (∀ h ∈ hs, h.text ≠ k) →
      crGet (correctOverlappedHeaders hs cr) k = crGet cr k := by
  intro hs
  induction hs with
  | nil => intro cr _; rfl
  | cons hi t ih =>
      intro cr hk
      cases t with
      | nil => rfl
      | cons hj rest =>
          have step : correctOverlappedHeaders (hi :: hj :: rest) cr =
              correctOverlappedHeaders (hj :: rest)
                (match crGet cr hi.text with
                 | some r =>
                     if hj.x0 < r.2 then
                       crSet cr hi.text (r.1, ((Int.floor hj.x0 : ℤ) : ℚ))
                     else cr
                 | Option.none => cr) := rfl
          rw [step, ih _ (fun h hm => hk h (List.mem_cons_of_mem _ hm))]
          cases hcr : crGet cr hi.text with
          | none => rfl
          | some r =>
              dsimp only
              split
              · exact crGet_crSet_ne _ _ _ _
                  (fun he => hk hi (List.mem_cons_self _ _) he.symm)
              · rfl

/-- C2 (amended): after stage 4's finalization each header's range is
clipped on the right so that it does not exceed the *next header's*
`x0` — `range[i].x1 ≤ header[i+1].x0` for adjacent headers with
distinct texts, each holding a range — though the ranges of distinct
headers may still overlap (the full disjointness of the claim fails,
see the counterexample). -/
theorem correctOverlappedHeaders_clips :
    ∀ (headers : List Hdr) (cr : ColRanges),
      (headers.map Hdr.text).Nodup →
      (∀ h ∈ headers, (crGet cr h.text).isSome) →
      ∀ (i : ℕ) (hi1 : i + 1 < headers.length) (r : ℚ × ℚ),
        crGet (correctOverlappedHeaders headers cr)
            ((headers.get ⟨i, Nat.lt_of_succ_lt hi1⟩).text) = some r →
        r.2 ≤ (headers.get ⟨i + 1, hi1⟩).x0 := by
  intro headers
  induction headers with
  | nil =>
      intro cr _ _ i hi1 r hr
      exact absurd hi1 (by simp)
  | cons hi t ih =>
      intro cr hnd hpres i hi1 r hr
      cases t with
      | nil =>
          exact absurd hi1 (by simp)
      | cons hj rest =>
          obtain ⟨r0, hr0⟩ := Option.isSome_iff_exists.mp
            (hpres hi (List.mem_cons_self _ _))
          have step : correctOverlappedHeaders (hi :: hj :: rest) cr =
              correctOverlappedHeaders (hj :: rest)
                (if hj.x0 < r0.2 then
                   crSet cr hi.text (r0.1, ((Int.floor hj.x0 : ℤ) : ℚ))
                 else cr) := by
            show correctOverlappedHeaders (hj :: rest)
                (match crGet cr hi.text with
                 | some r =>
                     if hj.x0 < r.2 then
                       crSet cr hi.text (r.1, ((Int.floor hj.x0 : ℤ) : ℚ))
                     else cr
                 | Option.none => cr) = _
            rw [hr0]
          have hnotmem : ∀ h ∈ hj :: rest, h.text ≠ hi.text := by
            have := hnd
            simp only [List.map_cons, List.nodup_cons] at this
            intro h hm he
            exact this.1 (by
              rw [← he]
              exact List.mem_map_of_mem Hdr.text hm)
          cases i with
          | zero =>
              rw [step] at hr
              simp only [List.get] at hr ⊢
              rw [correctOverlapped_untouched hi.text (hj :: rest) _ hnotmem] at hr
              by_cases hcl : hj.x0 < r0.2
              · rw [if_pos hcl, crGet_crSet_self] at hr
                have : r = (r0.1, ((Int.floor hj.x0 : ℤ) : ℚ)) := by
                  injection hr with h'; exact h'.symm
                rw [this]
                exact Int.floor_le _
              · rw [if_neg hcl, hr0] at hr
                have : r = r0 := by injection hr with h'; exact h'.symm
                rw [this]
                exact le_of_not_lt hcl
          | succ i' =>
              rw [step] at hr
              have hpres' : ∀ h ∈ hj :: rest,
                  (crGet (if hj.x0 < r0.2 then
                      crSet cr hi.text (r0.1, ((Int.floor hj.x0 : ℤ) : ℚ))
                    else cr) h.text).isSome := by
                intro h hm
                split
                · exact crGet_crSet_isSome _ _ _ _
                    (hpres h (List.mem_cons_of_mem _ hm))
                · exact hpres h (List.mem_cons_of_mem _ hm)
              have hnd' : ((hj :: rest).map Hdr.text).Nodup := by
                simp only [List.map_cons, List.nodup_cons] at hnd ⊢
                exact ⟨hnd.2.1, hnd.2.2⟩
              have hi1' : i' + 1 < (hj :: rest).length := by
                simpa using hi1
              have := ih _ hnd' hpres' i' hi1' r (by
                simpa using hr)
              simpa using this

/-- Witness for C2's amended theorem: two headers, `date` clipped from
`(0, 55)` to `(0, 50)` which satisfies `x1 ≤ 50 = header[1].x0`. -/
theorem correctOverlappedHeaders_clips_witness :
    ((0 : ℚ), (50 : ℚ)).2 ≤ (⟨"balance", 50, 60, 0, 10⟩ : Hdr).x0 :=
  correctOverlappedHeaders_clips
    [⟨"date", 0, 10, 0, 10⟩, ⟨"balance", 50, 60, 0, 10⟩]
    [("date", (0, 55)), ("balance", (5, 60))]
    (by decide) (by decide) 0 (by decide) (0, 50) (by decide)

theorem formatRowGo_last_check (fmt : String) :
    ∀ (ks : List String) (row r : Row),
      formatRowGo fmt ks row = some r → (ks = [] ∧ r = row) ∨ fcDropCond r = false := by
  intro ks
  induction ks with
  | nil =>
      intro row r h
      left
      refine ⟨rfl, ?_⟩
      have : some row = some r := h
      injection this with h'
      exact h'.symm
  | cons k t ih =>
      intro row r h
      right
      unfold formatRowGo at h
      by_cases hd : fcDropCond (formatRowStep fmt row k) = true
      · rw [if_pos hd] at h; cases h
      · have hd' : fcDropCond (formatRowStep fmt row k) = false := by
          simpa using hd
        rw [if_neg hd] at h
        rcases ih _ _ h with ⟨_, hre⟩ | h2
        · rw [hre]; exact hd'
        · exact h2

/-- C1 (confirmed): every row emitted by stage 8 has a non-null date
and a non-null balance or amount.  The drop test runs after each
converted key, so when the per-key loop finishes (and the row is
non-empty, which `run`'s truthiness check guarantees), the final row
passed the test; adding `page_number` does not disturb those keys. -/
theorem formatCleaner_emitted_valid (fmt : String) (pageRows : List Row) (page : ℚ)
    (r : Row) (hr : r ∈ formatCleanerPage fmt pageRows page) :
    rowIsNull r "date" = false ∧
    (rowIsNull r "balance" = false ∨ rowIsNull r "amount" = false) := by
  unfold formatCleanerPage at hr
  rw [List.mem_filterMap] at hr
  obtain ⟨row, _, hrow⟩ := hr
  cases hfr : formatRow row fmt with
  | none => rw [hfr] at hrow; simp at hrow
  | some r1 =>
      rw [hfr] at hrow
      dsimp only at hrow
      by_cases h1 : r1 = []
      · rw [if_pos h1] at hrow; cases hrow
      · rw [if_neg h1] at hrow
        have hreq : rowSet r1 "page_number" (Val.num page) = r := by
          injection hrow with h'
        have hdrop : fcDropCond r1 = false := by
          unfold formatRow at hfr
          rcases formatRowGo_last_check fmt _ _ _ hfr with ⟨hks, hre⟩ | h2
          · exact absurd (hre.trans (List.map_eq_nil_iff.mp hks)) h1
          · exact h2
        rw [← hreq,
          rowIsNull_rowSet_ne r1 "page_number" "date" (Val.num page) (by decide),
          rowIsNull_rowSet_ne r1 "page_number" "balance" (Val.num page) (by decide),
          rowIsNull_rowSet_ne r1 "page_number" "amount" (Val.num page) (by decide)]
        unfold fcDropCond at hdrop
        cases hA : rowIsNull r1 "date" <;> cases hB : rowIsNull r1 "balance" <;>
          cases hC : rowIsNull r1 "amount" <;> simp_all

/-- Witness for C1 at a concrete page: one raw row with a date and a
balance is emitted as a typed transaction satisfying the invariant. -/
theorem formatCleaner_emitted_valid_witness :
    rowIsNull [("date", Val.str "2024-01-02"), ("balance", Val.num 1000),
      ("page_number", Val.num 0)] "date" = false ∧
    (rowIsNull [("date", Val.str "2024-01-02"), ("balance", Val.num 1000),
        ("page_number", Val.num 0)] "balance" = false ∨
      rowIsNull [("date", Val.str "2024-01-02"), ("balance", Val.num 1000),
        ("page_number", Val.num 0)] "amount" = false) :=
  formatCleaner_emitted_valid "US"
    [[("Date", Val.str "01/02/2024"), ("Balance", Val.str "1,000.00")]] 0 _ (by decide)

theorem checkModeGo_le (post : Bool) :
    ∀ (l : List (Option ℚ × ℚ × ℚ)) (prev : Option ℚ),
      (checkModeGo post prev l).1 ≤ (checkModeGo post prev l).2 := by
  intro l
  induction l with
  | nil => intro prev; simp [checkModeGo]
  | cons x rest ih =>
      intro prev
      obtain ⟨b, cr, dr⟩ := x
      unfold checkModeGo
      cases prev with
      | none => simpa using ih b
      | some pb =>
          cases b with
          | none => simpa using ih Option.none
          | some bb =>
              dsimp only
              have hih := ih (some bb)
              split_ifs <;> simp <;> omega

theorem checkMode_mem_unit (post : Bool) (bs : List (Option ℚ)) (cs ds : List ℚ) :
    0 ≤ checkMode post bs cs ds ∧ checkMode post bs cs ds ≤ 1 := by
  unfold checkMode
  cases bs with
  | nil => norm_num
  | cons b0 br =>
      dsimp only
      by_cases h :
          (checkModeGo post b0
            ((br.zip ((cs.drop 1).zip (ds.drop 1))).map (fun t => (t.1, t.2.1, t.2.2)))).2 = 0
      · rw [if_pos h]; norm_num
      · rw [if_neg h]
        have hle := checkModeGo_le post
          ((br.zip ((cs.drop 1).zip (ds.drop 1))).map (fun t => (t.1, t.2.1, t.2.2))) b0
        have hpos : (0 : ℚ) <
            ((checkModeGo post b0
              ((br.zip ((cs.drop 1).zip (ds.drop 1))).map
                (fun t => (t.1, t.2.1, t.2.2)))).2 : ℚ) := by
          exact_mod_cast Nat.pos_of_ne_zero h
        constructor
        · exact div_nonneg (by positivity) (le_of_lt hpos)
        · rw [div_le_one hpos]
          exact_mod_cast hle

theorem roundHalfEven_bounds (x : ℚ) (h0 : 0 ≤ x) (h1 : x ≤ 1000) :
    0 ≤ roundHalfEven x ∧ roundHalfEven x ≤ 1000 := by
  unfold roundHalfEven
  dsimp only
  have hf0 : (0 : ℤ) ≤ ⌊x⌋ := Int.floor_nonneg.mpr h0
  have hf1 : ⌊x⌋ ≤ 1000 := by
    have := Int.floor_le_floor h1
    simpa using this
  have hfx : (⌊x⌋ : ℚ) ≤ x := Int.floor_le x
  split_ifs with hr1 hr2 hpar
  · exact ⟨hf0, hf1⟩
  · refine ⟨by omega, ?_⟩
    by_contra hc
    push_neg at hc
    have hfe : ⌊x⌋ = 1000 := by omega
    rw [hfe] at hr2
    have : x - ((1000 : ℤ) : ℚ) ≤ 0 := by push_cast; linarith
    linarith
  · exact ⟨hf0, hf1⟩
  · refine ⟨by omega, ?_⟩
    have heq : x - (⌊x⌋ : ℚ) = 1/2 := le_antisymm (not_lt.mp hr2) (not_lt.mp hr1)
    have hcast : ((⌊x⌋ : ℤ) : ℚ) ≤ 1000 - 1/2 := by linarith
    have : ⌊x⌋ ≤ 999 := by
      by_contra hgt
      push_neg at hgt
      have : (1000 : ℚ) ≤ ((⌊x⌋ : ℤ) : ℚ) := by exact_mod_cast hgt
      linarith
    omega

theorem pyRound2_bounds (x : ℚ) (h0 : 0 ≤ x) (h1 : x ≤ 10) :
    0 ≤ pyRound2 x ∧ pyRound2 x ≤ 10 := by
  unfold pyRound2
  obtain ⟨hb0, hb1⟩ := roundHalfEven_bounds (x * 100) (by linarith) (by linarith)
  constructor
  · exact div_nonneg (by exact_mod_cast hb0) (by norm_num)
  · rw [div_le_iff₀ (by norm_num : (0:ℚ) < 100)]
    calc ((roundHalfEven (x * 100) : ℤ) : ℚ) ≤ ((1000 : ℤ) : ℚ) := by exact_mod_cast hb1
      _ = 10 * 100 := by norm_num

theorem round_ratio_bounds (p q : ℚ) (hp : 0 ≤ p ∧ p ≤ 1) (hq : 0 ≤ q ∧ q ≤ 1) :
    0 ≤ pyRound2 (10 * max p q) ∧ pyRound2 (10 * max p q) ≤ 10 := by
  apply pyRound2_bounds
  · have h1 : 0 ≤ max p q := le_trans hp.1 (le_max_left p q)
    linarith
  · have h2 : max p q ≤ 1 := max_le hp.2 hq.2
    linarith

/-- C3 (confirmed): the Score stage's result is always in `[0, 10]` —
it is `10 · max(post, pre)` of two match ratios, each a count of
matches over a count of checks (hence in `[0, 1]`, and `0` with no
checks), rounded to two decimals, and `0.0` for an empty row list. -/
theorem scoreParsedResult_score_in_range (rows : List Row) :
    0 ≤ (scoreParsedResult rows).score ∧ (scoreParsedResult rows).score ≤ 10 := by
  unfold scoreParsedResult
  by_cases h : rows = []
  · rw [if_pos h]; norm_num
  · rw [if_neg h]
    dsimp only
    exact round_ratio_bounds _ _ (checkMode_mem_unit _ _ _ _) (checkMode_mem_unit _ _ _ _)

theorem toList_mk (l : List Char) : (String.mk l).toList = l := rfl

theorem digitChar_isDig (n : Nat) (h : n < 10) : isDig (Nat.digitChar n) = true := by
  interval_cases n <;> decide

theorem digitChar_digVal (n : Nat) (h : n < 10) : digVal (Nat.digitChar n) = n := by
  interval_cases n <;> decide

theorem isDig_beq_false (c : Char) (h : isDig c = true) (d : Char) (hd : isDig d = false) :
    (c == d) = false := by
  by_contra hc
  rw [Bool.not_eq_false, beq_iff_eq] at hc
  subst hc
  rw [h] at hd
  cases hd

theorem isDig_not_sep (c : Char) (h : isDig c = true) : isSep c = false := by
  unfold isSep
  rw [isDig_beq_false c h '/' (by decide), isDig_beq_false c h '-' (by decide)]
  rfl

theorem isDig_not_ws (c : Char) (h : isDig c = true) : isPyWs c = false := by
  unfold isPyWs
  rw [isDig_beq_false c h ' ' (by decide), isDig_beq_false c h '\t' (by decide),
    isDig_beq_false c h '\n' (by decide), isDig_beq_false c h '\r' (by decide),
    isDig_beq_false c h '\x0b' (by decide), isDig_beq_false c h '\x0c' (by decide)]
  rfl

theorem pad2_spec (n : Nat) (h : n < 100) :
    ∃ e f, pad2 n = [e, f] ∧ isDig e = true ∧ isDig f = true ∧
      digVal e * 10 + digVal f = n := by
  unfold pad2
  by_cases h10 : n < 10
  · rw [if_pos h10]
    refine ⟨'0', Nat.digitChar n, rfl, by decide, digitChar_isDig n h10, ?_⟩
    rw [digitChar_digVal n h10]
    simp [digVal]
  · rw [if_neg h10]
    refine ⟨_, _, rfl, digitChar_isDig _ (Nat.mod_lt _ (by norm_num)),
      digitChar_isDig _ (Nat.mod_lt _ (by norm_num)), ?_⟩
    rw [digitChar_digVal _ (Nat.mod_lt _ (by norm_num)),
      digitChar_digVal _ (Nat.mod_lt _ (by norm_num))]
    omega

theorem year4_spec (y : Nat) (h1 : 1000 ≤ y) (h2 : y ≤ 9999) :
    ∃ a b c d, year4 y = [a, b, c, d] ∧ isDig a = true ∧ isDig b = true ∧
      isDig c = true ∧ isDig d = true ∧
      ((digVal a * 10 + digVal b) * 10 + digVal c) * 10 + digVal d = y := by
  unfold year4
  refine ⟨_, _, _, _, rfl, digitChar_isDig _ (Nat.mod_lt _ (by norm_num)),
    digitChar_isDig _ (Nat.mod_lt _ (by norm_num)),
    digitChar_isDig _ (Nat.mod_lt _ (by norm_num)),
    digitChar_isDig _ (Nat.mod_lt _ (by norm_num)), ?_⟩
  rw [digitChar_digVal _ (Nat.mod_lt _ (by norm_num)),
    digitChar_digVal _ (Nat.mod_lt _ (by norm_num)),
    digitChar_digVal _ (Nat.mod_lt _ (by norm_num)),
    digitChar_digVal _ (Nat.mod_lt _ (by norm_num))]
  omega

theorem dropWhile_eq_self_of_all (p : Char → Bool) (l : List Char)
    (h : ∀ c ∈ l, p c = false) : l.dropWhile p = l := by
  cases l with
  | nil => rfl
  | cons a t =>
      rw [List.dropWhile_cons, h a (by simp)]
      simp only [Bool.false_eq_true, if_false]

theorem pyStripList_of_no_ws (l : List Char) (h : ∀ c ∈ l, isPyWs c = false) :
    pyStripList l = l := by
  unfold pyStripList
  rw [dropWhile_eq_self_of_all _ _ h,
    dropWhile_eq_self_of_all _ _ (fun c hc => h c (List.mem_reverse.mp hc)),
    List.reverse_reverse]

theorem fmtYMD_toList (y m d : Nat) :
    (fmtYMD ⟨y, m, d⟩).toList = year4 y ++ '-' :: pad2 m ++ '-' :: pad2 d := rfl

theorem daysInMonth_le (y m : Nat) : daysInMonth y m ≤ 31 := by
  unfold daysInMonth
  split_ifs <;> norm_num

theorem validYMD_bounds (y m d : Nat) (h : validYMD y m d = true) :
    1 ≤ m ∧ m ≤ 12 ∧ 1 ≤ d ∧ d ≤ 31 := by
  unfold validYMD at h
  simp only [Bool.and_eq_true, decide_eq_true_eq] at h
  obtain ⟨⟨⟨h1, h2⟩, h3⟩, h4⟩ := h
  exact ⟨h1, h2, h3, le_trans h4 (daysInMonth_le y m)⟩

theorem dateHeadMatch_fmtYMD_none (y m d : Nat) (hy1 : 1000 ≤ y) (hy2 : y ≤ 9999) :
    dateHeadMatch (fmtYMD ⟨y, m, d⟩) = Option.none := by
  obtain ⟨a, b, c, dd, hy4, ha, hb, hc, hdd, _⟩ := year4_spec y hy1 hy2
  unfold dateHeadMatch
  rw [fmtYMD_toList, hy4]
  simp only [List.cons_append, List.nil_append]
  rw [List.dropWhile_cons, isDig_not_ws a ha]
  simp only [Bool.false_eq_true, if_false]
  unfold num12At
  dsimp only
  rw [isDig_not_sep c hc, isDig_not_sep b hb, ha, hb]
  simp

theorem inferDayfirst_fmtYMD_none (y m d : Nat) (hy1 : 1000 ≤ y) (hy2 : y ≤ 9999) :
    inferDayfirstFromHead (fmtYMD ⟨y, m, d⟩) = Option.none := by
  unfold inferDayfirstFromHead
  rw [dateHeadMatch_fmtYMD_none y m d hy1 hy2]

theorem parseISOTokens_fmtYMD (y m d : Nat) (hy1 : 1000 ≤ y) (hy2 : y ≤ 9999)
    (hm : m < 100) (hd : d < 100) :
    parseISOTokens (fmtYMD ⟨y, m, d⟩) = some (y, m, d) := by
  obtain ⟨a, b, c, dd, hy4, ha, hb, hc, hdd, hyv⟩ := year4_spec y hy1 hy2
  obtain ⟨e, f, hpm, he, hf, hmv⟩ := pad2_spec m hm
  obtain ⟨g, h2, hpd, hg, hh2, hdv⟩ := pad2_spec d hd
  unfold parseISOTokens
  rw [fmtYMD_toList, hy4, hpm, hpd]
  simp only [List.cons_append, List.nil_append]
  have hws : ∀ ch ∈ (a :: b :: c :: dd :: '-' :: e :: f :: '-' :: g :: h2 :: ([] : List Char)),
      isPyWs ch = false := by
    intro ch hch
    simp only [List.mem_cons, List.not_mem_nil, or_false] at hch
    rcases hch with rfl | rfl | rfl | rfl | rfl | rfl | rfl | rfl | rfl | rfl
    exacts [isDig_not_ws _ ha, isDig_not_ws _ hb, isDig_not_ws _ hc, isDig_not_ws _ hdd,
      by decide, isDig_not_ws _ he, isDig_not_ws _ hf, by decide,
      isDig_not_ws _ hg, isDig_not_ws _ hh2]
  rw [pyStripList_of_no_ws _ hws]
  dsimp only
  simp only [List.all_cons, List.all_nil, ha, hb, hc, hdd, he, hf, hg, hh2,
    Bool.and_true, Bool.true_and, Bool.and_self, beq_self_eq_true, if_true]
  have e1 : digitsToNat [a, b, c, dd] = y := by
    simp only [digitsToNat, List.foldl_cons, List.foldl_nil]
    omega
  have e2 : digitsToNat [e, f] = m := by
    simp only [digitsToNat, List.foldl_cons, List.foldl_nil]
    omega
  have e3 : digitsToNat [g, h2] = d := by
    simp only [digitsToNat, List.foldl_cons, List.foldl_nil]
    omega
  rw [e1, e2, e3]

theorem smartDateParser_fmtYMD (y m d : Nat) (hy1 : 1000 ≤ y) (hy2 : y ≤ 9999)
    (hv : validYMD y m d = true) :
    smartDateParser (fmtYMD ⟨y, m, d⟩) "US" = (fmtYMD ⟨y, m, d⟩, "US") := by
  obtain ⟨hm1, hm2, hd1, hd2⟩ := validYMD_bounds y m d hv
  have hdu : dateutilParse (fmtYMD ⟨y, m, d⟩) (normLocale "US" == "EU") = some ⟨y, m, d⟩ := by
    unfold dateutilParse
    rw [parseISOTokens_fmtYMD y m d hy1 hy2 (by omega) (by omega)]
    simp [hv]
  unfold smartDateParser
  rw [inferDayfirst_fmtYMD_none y m d hy1 hy2]
  dsimp only
  rw [hdu]
  dsimp only
  rw [show normLocale "US" = "US" from by decide]

theorem fmtYMD_ne_empty (y m d : Nat) : fmtYMD ⟨y, m, d⟩ ≠ "" := by
  intro hEq
  have h : (fmtYMD ⟨y, m, d⟩).toList = [] := by rw [hEq]; rfl
  rw [fmtYMD_toList] at h
  simp [year4] at h

/-- C10 (confirmed): a non-empty date string already in the parser's
ISO `YYYY-MM-DD` output format (4-digit year, valid calendar date) is
judged NOT valid by stage 7's `_is_valid_date`, because that check
detects parse success by the reformatted string *differing* from the
input, and `smart_date_parser` reproduces an ISO date verbatim.
Consequently such a date never triggers the conflicting-date penalty
(either side) nor the valid-date-creation bonus when it is the only
date present. -/
theorem mergeRows_iso_date_invisible (y m d : Nat)
    (hy1 : 1000 ≤ y) (hy2 : y ≤ 9999) (hv : validYMD y m d = true) :
    misValidDate (Val.str (fmtYMD ⟨y, m, d⟩)) = false ∧
    (∀ v, dateConflictPenaltyApplies (Val.str (fmtYMD ⟨y, m, d⟩)) v = false) ∧
    (∀ v, dateConflictPenaltyApplies v (Val.str (fmtYMD ⟨y, m, d⟩)) = false) ∧
    dateBonusApplies (Val.str (fmtYMD ⟨y, m, d⟩)) Val.none = false := by
  have hne := fmtYMD_ne_empty y m d
  have hmv : misValidDate (Val.str (fmtYMD ⟨y, m, d⟩)) = false := by
    unfold misValidDate
    dsimp only
    rw [if_neg hne, smartDateParser_fmtYMD y m d hy1 hy2 hv]
    simp
  refine ⟨hmv, fun v => ?_, fun v => ?_, ?_⟩
  · unfold dateConflictPenaltyApplies
    rw [hmv]
    exact Bool.false_and _
  · unfold dateConflictPenaltyApplies
    rw [hmv]
    exact Bool.and_false _
  · unfold dateBonusApplies tryMergeText
    simp [pyTruthy, hne, hmv]

/-- Witness for C10 at the claim's own example `"2024-02-01"`. -/
theorem mergeRows_iso_date_invisible_witness :
    misValidDate (Val.str (fmtYMD ⟨2024, 2, 1⟩)) = false :=
  (mergeRows_iso_date_invisible 2024 2 1 (by norm_num) (by norm_num) (by decide)).1

end ParserServices
